import Mathlib

/-!
# The Optifuser renderer adapter (`src/renderer/optifuser_renderer.cpp`)

A shallow embedding of `OptifuserRigidbody` and `OptifuserScene`.

* Scalars (`float` in the source) are an arbitrary type `α`: the adapter only
  copies them, it never computes with them.  The constants `0` and `1` written
  in the source are the `Zero`/`One` of `α`.
* Pointers are addresses (`Nat`).  `Optifuser::Object`s live in a heap
  (`Heap α`, address ↦ object); a `std::unique_ptr` in a vector is a pair
  (address, pointee).  New objects and bodies are put at `nextAddr`, an
  address above every address in use; the address of a new camera is whatever
  the allocator returns, given as an argument of `addCamera`, so that a freed
  address can come back.
* What the source calls but does not define (PhysX transform composition, the
  Optifuser constructors and the mesh loader, the member initialisers of the
  header) is collected in `Env`.  The statements hold for every `Env`; the one
  on id tags asks that a new object carries the ids a new body reports
  (`Env.DefaultTags`).
* The render scene (`Optifuser::Scene`) is the sequence of calls it received.
* `spdlog` output is a list of log entries.

Embedded: all of `OptifuserRigidbody` except `destroy`, and from
`OptifuserScene` the constructor, the three overloads of `addRigidbody`,
`removeRigidbody`, `addCamera`, `removeCamera` and `getCameras`.  The lights
and `OptifuserRenderer` are not embedded.
-/

namespace physx

/-- PhysX vector of three scalars. -/
structure PxVec3 (α : Type) where
  x : α
  y : α
  z : α
deriving DecidableEq, Repr

/-- PhysX quaternion; the members are declared in the order x, y, z, w. -/
structure PxQuat (α : Type) where
  x : α
  y : α
  z : α
  w : α
deriving DecidableEq, Repr

/-- PhysX rigid transform: rotation `q` and translation `p`. -/
structure PxTransform (α : Type) where
  q : PxQuat α
  p : PxVec3 α
deriving DecidableEq, Repr

/-- The quaternion built from `physx::PxIdentity`. -/
def PxIdentity {α : Type} [Zero α] [One α] : PxQuat α := ⟨0, 0, 0, 1⟩

/-- The enumerators of `physx::PxGeometryType::Enum`. -/
inductive PxGeometryType where
  | eSPHERE
  | ePLANE
  | eCAPSULE
  | eBOX
  | eCONVEXMESH
  | eTRIANGLEMESH
  | eHEIGHTFIELD
  | eGEOMETRY_COUNT
  | eINVALID
deriving DecidableEq, Repr

end physx

namespace glm

/-- Three component vector, as in `glm::vec3`. -/
structure vec3 (α : Type) where
  x : α
  y : α
  z : α
deriving DecidableEq, Repr

/-- Four component vector, as in `glm::vec4`. -/
structure vec4 (α : Type) where
  x : α
  y : α
  z : α
  w : α
deriving DecidableEq, Repr

/-- Quaternion as in `glm::quat`, whose constructor takes (w, x, y, z). -/
structure quat (α : Type) where
  w : α
  x : α
  y : α
  z : α
deriving DecidableEq, Repr

end glm

namespace Optifuser

/-- The members of `Optifuser::Object` that the adapter reads or writes, and
the geometry the object was built with (`mesh`, which the adapter never
touches). -/
structure Object (α : Type) where
  position : glm.vec3 α
  rotation : glm.quat α
  scale : glm.vec3 α
  visible : Bool
  objId : Nat
  segmentId : Nat
  userData : List α
  kd : glm.vec4 α
  mesh : List α
deriving DecidableEq, Repr

/-- Vertex as in `Optifuser::Vertex`, built from a position and a normal. -/
structure Vertex (α : Type) where
  position : glm.vec3 α
  normal : glm.vec3 α
deriving DecidableEq, Repr

/-- A call received by the render scene. -/
inductive SceneCall where
  | addObject (obj : Nat)
  | removeObject (obj : Nat)
deriving DecidableEq, Repr

/-- The render scene `Optifuser::Scene`, as the calls it has received. -/
structure Scene where
  calls : List SceneCall
deriving DecidableEq, Repr

/-- External `Scene::addObject(std::move(obj))`. -/
def Scene.addObject (s : Scene) (obj : Nat) : Scene :=
  { calls := s.calls ++ [SceneCall.addObject obj] }

/-- External `Scene::removeObject(obj)`. -/
def Scene.removeObject (s : Scene) (obj : Nat) : Scene :=
  { calls := s.calls ++ [SceneCall.removeObject obj] }

end Optifuser

namespace sapien.Renderer

open physx

/-- Object storage: the object found at each address. -/
abbrev Heap (α : Type) := Nat → Optifuser.Object α

/-- Write through a pointer: `*obj = f(*obj)`. -/
def Heap.modify {α : Type} (heap : Heap α) (obj : Nat)
    (f : Optifuser.Object α → Optifuser.Object α) : Heap α :=
  fun a => if a = obj then f (heap a) else heap a

/-- Store `o` at address `obj`. -/
def Heap.store {α : Type} (heap : Heap α) (obj : Nat) (o : Optifuser.Object α) : Heap α :=
  fun a => if a = obj then o else heap a

/-- What the source uses and does not define. -/
structure Env (α : Type) where
  /-- External `PxTransform::operator*` of PhysX. -/
  mul : PxTransform α → PxTransform α → PxTransform α
  /-- External `Optifuser::LoadObj`: the objects read from a mesh file, in order. -/
  LoadObj : String → List (Optifuser.Object α)
  /-- External `Optifuser::NewFlatCube()`. -/
  NewFlatCube : Optifuser.Object α
  /-- External `Optifuser::NewSphere()`. -/
  NewSphere : Optifuser.Object α
  /-- External `Optifuser::NewYZPlane()`. -/
  NewYZPlane : Optifuser.Object α
  /-- External `Optifuser::NewCapsule(radius, halfLength)`. -/
  NewCapsule : α → α → Optifuser.Object α
  /-- External `Optifuser::NewObject<Object>` over a new `TriangleMesh` of the
  given vertices and indices. -/
  NewMeshObject : List (Optifuser.Vertex α) → List Nat → Optifuser.Object α
  /-- Member initialiser of `OptifuserRigidbody::mInitialPose` (header). -/
  mInitialPose0 : PxTransform α
  /-- Member initialiser of `OptifuserRigidbody::mUniqueId` (header). -/
  mUniqueId0 : Nat
  /-- Member initialiser of `OptifuserRigidbody::mSegmentationId` (header). -/
  mSegmentationId0 : Nat

/-! ## Rigidbody -/

/-- The members of `OptifuserRigidbody`. -/
structure OptifuserRigidbody (α : Type) where
  mParentScene : Nat
  mInitialPose : PxTransform α
  mObjects : List Nat
  mUniqueId : Nat
  mSegmentationId : Nat
deriving DecidableEq, Repr

/-- The loop `for (auto obj : mObjects) { f(*obj); }`. -/
def forEachObj {α : Type} (mObjects : List Nat)
    (f : Optifuser.Object α → Optifuser.Object α) (heap : Heap α) : Heap α :=
  mObjects.foldl (fun h obj => Heap.modify h obj f) heap

namespace OptifuserRigidbody

variable {α : Type}

/-- Constructor: stores the parent scene and the handles; the other members
take their member initialisers. -/
def new (E : Env α) (scene : Nat) (objects : List Nat) : OptifuserRigidbody α :=
  { mParentScene := scene
    mInitialPose := E.mInitialPose0
    mObjects := objects
    mUniqueId := E.mUniqueId0
    mSegmentationId := E.mSegmentationId0 }

/-- Method `setUniqueId(uniqueId)`. -/
def setUniqueId (self : OptifuserRigidbody α) (uniqueId : Nat) (heap : Heap α) :
    OptifuserRigidbody α × Heap α :=
  ({ self with mUniqueId := uniqueId },
   forEachObj self.mObjects (fun o => { o with objId := uniqueId }) heap)

/-- Method `getUniqueId()`. -/
def getUniqueId (self : OptifuserRigidbody α) : Nat := self.mUniqueId

/-- Method `setSegmentationId(segmentationId)`. -/
def setSegmentationId (self : OptifuserRigidbody α) (segmentationId : Nat) (heap : Heap α) :
    OptifuserRigidbody α × Heap α :=
  ({ self with mSegmentationId := segmentationId },
   forEachObj self.mObjects (fun o => { o with segmentId := segmentationId }) heap)

/-- Method `getSegmentationId()`. -/
def getSegmentationId (self : OptifuserRigidbody α) : Nat := self.mSegmentationId

/-- Method `setSegmentationCustomData(customData)`. -/
def setSegmentationCustomData (self : OptifuserRigidbody α) (customData : List α)
    (heap : Heap α) : OptifuserRigidbody α × Heap α :=
  (self, forEachObj self.mObjects (fun o => { o with userData := customData }) heap)

/-- The body of the loop of `update`: position from `pose.p`, rotation from
`pose.q` passed as (w, x, y, z). -/
def writePose (pose : PxTransform α) (o : Optifuser.Object α) : Optifuser.Object α :=
  { o with
    position := ⟨pose.p.x, pose.p.y, pose.p.z⟩
    rotation := ⟨pose.q.w, pose.q.x, pose.q.y, pose.q.z⟩ }

/-- Method `update(transform)`. -/
def update (E : Env α) (self : OptifuserRigidbody α) (transform : PxTransform α)
    (heap : Heap α) : OptifuserRigidbody α × Heap α :=
  let pose := E.mul transform self.mInitialPose
  (self, forEachObj self.mObjects (writePose pose) heap)

/-- Method `setInitialPose(transform)`. -/
def setInitialPose [Zero α] [One α] (E : Env α) (self : OptifuserRigidbody α)
    (transform : PxTransform α) (heap : Heap α) : OptifuserRigidbody α × Heap α :=
  update E { self with mInitialPose := transform } { p := ⟨0, 0, 0⟩, q := PxIdentity } heap

/-- Method `setVisible(visible)`. -/
def setVisible (self : OptifuserRigidbody α) (visible : Bool) (heap : Heap α) :
    OptifuserRigidbody α × Heap α :=
  (self, forEachObj self.mObjects (fun o => { o with visible := visible }) heap)

/-- Method `setRenderMode(mode)`: empty body in the source. -/
def setRenderMode (self : OptifuserRigidbody α) (_mode : Nat) (heap : Heap α) :
    OptifuserRigidbody α × Heap α :=
  (self, heap)

/-- Method `destroyVisualObjects()`: one `removeObject` per handle, on the render
scene of the parent scene. -/
def destroyVisualObjects (self : OptifuserRigidbody α) (mScene : Optifuser.Scene) :
    Optifuser.Scene :=
  self.mObjects.foldl (fun s obj => s.removeObject obj) mScene

end OptifuserRigidbody

/-! ## Scene -/

/-- Severity of a `spdlog` entry. -/
inductive LogLevel where
  | warn
  | error
deriving DecidableEq, Repr

/-- One `spdlog` entry. -/
structure LogEntry where
  level : LogLevel
  msg : String
deriving DecidableEq, Repr

/-- What `addCamera` hands to the constructor of `OptifuserCamera`, and the
`near` and `far` of its `mCameraSpec`. -/
structure OptifuserCamera (α : Type) where
  mName : String
  mWidth : Nat
  mHeight : Nat
  fovy : α
  mScene : Nat
  shaderDir : String
  near : α
  far : α
deriving DecidableEq, Repr

/-- The members of `OptifuserScene`; a `std::unique_ptr` is the pair of its
address and its pointee. -/
structure OptifuserScene (α : Type) where
  mParentRenderer : Nat
  mScene : Optifuser.Scene
  mName : String
  mBodies : List (Nat × OptifuserRigidbody α)
  mCameras : List (Nat × OptifuserCamera α)
deriving DecidableEq, Repr

/-- Everything a method of `OptifuserScene` can read or write: the scene
itself (at address `sceneAddr`), the object heap, an address `nextAddr` above
every address in use, the log, and `mParentRenderer->mGlslDir`. -/
structure World (α : Type) where
  heap : Heap α
  nextAddr : Nat
  log : List LogEntry
  mGlslDir : String
  sceneAddr : Nat
  scene : OptifuserScene α

namespace OptifuserScene

variable {α : Type}

/-- Constructor `OptifuserScene(renderer, name)`: a new render scene, no
bodies, no cameras. -/
def new (renderer : Nat) (name : String) : OptifuserScene α :=
  { mParentRenderer := renderer
    mScene := { calls := [] }
    mName := name
    mBodies := []
    mCameras := [] }

/-- The objects returned by `Optifuser::LoadObj` are put at consecutive unused
addresses; returns the addresses in loader order. -/
def allocObjects : List (Optifuser.Object α) → Heap α → Nat → List Nat × Heap α × Nat
  | [], heap, next => ([], heap, next)
  | o :: rest, heap, next =>
    let r := allocObjects rest (Heap.store heap next o) (next + 1)
    (next :: r.1, r.2.1, r.2.2)

/-- The assignment `obj->scale = {scale.x, scale.y, scale.z}`. -/
def setScale (scale : PxVec3 α) (o : Optifuser.Object α) : Optifuser.Object α :=
  { o with scale := ⟨scale.x, scale.y, scale.z⟩ }

/-- The loop of `addRigidbody(meshFile, scale)` over the loaded objects: set
the scale, push the raw pointer, register with the render scene. -/
def loadLoop (scale : PxVec3 α) :
    List Nat → Heap α × List Nat × Optifuser.Scene → Heap α × List Nat × Optifuser.Scene
  | [], st => st
  | obj :: rest, (heap, objs, mScene) =>
    loadLoop scale rest
      (Heap.modify heap obj (setScale scale), objs ++ [obj], mScene.addObject obj)

/-- Method `addRigidbody(meshFile, scale)`; the result is `none` for `nullptr`. -/
def addRigidbody_meshFile (E : Env α) (w : World α) (meshFile : String) (scale : PxVec3 α) :
    Option Nat × World α :=
  let objects := allocObjects (E.LoadObj meshFile) w.heap w.nextAddr
  if objects.1.isEmpty then
    (none, { w with
      heap := objects.2.1
      nextAddr := objects.2.2
      log := w.log ++ [⟨LogLevel.error, "Failed to load damaged file: " ++ meshFile⟩] })
  else
    let r := loadLoop scale objects.1 (objects.2.1, [], w.scene.mScene)
    let body := objects.2.2
    (some body,
     { w with
       heap := r.1
       nextAddr := body + 1
       scene := { w.scene with
         mScene := r.2.2
         mBodies := w.scene.mBodies ++ [(body, OptifuserRigidbody.new E w.sceneAddr r.2.1)] } })

/-- The first loop of `addRigidbody(points, normals, indices, scale, color)`:
one vertex per point, from `points[i]` and `normals[i]`; `none` when `normals`
is shorter than `points` (the read `normals[i]` is then out of range). -/
def buildVertices : List (PxVec3 α) → List (PxVec3 α) → Option (List (Optifuser.Vertex α))
  | [], _ => some []
  | _ :: _, [] => none
  | p :: points, n :: normals =>
    (buildVertices points normals).map
      (fun vertices => { position := ⟨p.x, p.y, p.z⟩, normal := ⟨n.x, n.y, n.z⟩ } :: vertices)

/-- Method `addRigidbody(points, normals, indices, scale, color)`: one object
over the triangle mesh, coloured (the fourth colour component is left as it
is) and scaled, one body over it, the object registered; returns the address
of the body, or `none` when the source reads out of range. -/
def addRigidbody_points (E : Env α) (w : World α) (points normals : List (PxVec3 α))
    (indices : List Nat) (scale color : PxVec3 α) : Option (Nat × World α) :=
  match buildVertices points normals with
  | none => none
  | some vertices =>
    let obj := E.NewMeshObject vertices indices
    let objAddr := w.nextAddr
    let body := objAddr + 1
    some (body,
      { w with
        heap := Heap.store w.heap objAddr
          { obj with
            kd := ⟨color.x, color.y, color.z, obj.kd.w⟩
            scale := ⟨scale.x, scale.y, scale.z⟩ }
        nextAddr := body + 1
        scene := { w.scene with
          mBodies := w.scene.mBodies ++ [(body, OptifuserRigidbody.new E w.sceneAddr [objAddr])]
          mScene := w.scene.mScene.addObject objAddr } })

/-- The common tail of `addRigidbody(type, scale, color)` after the `switch`:
colour the object, make the body over it, register the object. -/
def finishPrimitive (E : Env α) [One α] (w : World α) (obj : Optifuser.Object α)
    (color : PxVec3 α) : Option Nat × World α :=
  let objAddr := w.nextAddr
  let body := objAddr + 1
  (some body,
   { w with
     heap := Heap.store w.heap objAddr { obj with kd := ⟨color.x, color.y, color.z, 1⟩ }
     nextAddr := body + 1
     scene := { w.scene with
       mBodies := w.scene.mBodies ++ [(body, OptifuserRigidbody.new E w.sceneAddr [objAddr])]
       mScene := w.scene.mScene.addObject objAddr } })

/-- Method `addRigidbody(type, scale, color)`; the result is `none` for `nullptr`. -/
def addRigidbody_type (E : Env α) [One α] (w : World α) (type : PxGeometryType)
    (scale : PxVec3 α) (color : PxVec3 α) : Option Nat × World α :=
  match type with
  | PxGeometryType.eBOX =>
    finishPrimitive E w { E.NewFlatCube with scale := ⟨scale.x, scale.y, scale.z⟩ } color
  | PxGeometryType.eSPHERE =>
    finishPrimitive E w { E.NewSphere with scale := ⟨scale.x, scale.y, scale.z⟩ } color
  | PxGeometryType.ePLANE =>
    finishPrimitive E w { E.NewYZPlane with scale := ⟨scale.x, scale.y, scale.z⟩ } color
  | PxGeometryType.eCAPSULE =>
    finishPrimitive E w { E.NewCapsule scale.x scale.y with scale := ⟨1, 1, 1⟩ } color
  | _ =>
    (none, { w with
      log := w.log ++ [⟨LogLevel.error, "Failed to add Rididbody: unimplemented shape"⟩] })

/-- The loop of `removeRigidbody`: at the first entry whose address is `body`,
detach its handles from the render scene, erase the entry and stop. -/
def removeLoop (body : Nat) :
    List (Nat × OptifuserRigidbody α) → Optifuser.Scene →
      List (Nat × OptifuserRigidbody α) × Optifuser.Scene
  | [], mScene => ([], mScene)
  | it :: rest, mScene =>
    if it.1 = body then
      (rest, it.2.destroyVisualObjects mScene)
    else
      let r := removeLoop body rest mScene
      (it :: r.1, r.2)

/-- Method `removeRigidbody(body)`. -/
def removeRigidbody (w : World α) (body : Nat) : World α :=
  let r := removeLoop body w.scene.mBodies w.scene.mScene
  { w with scene := { w.scene with mBodies := r.1, mScene := r.2 } }

/-- Method `addCamera(name, width, height, fovx, fovy, near, far, shaderDir)`; returns
the address of the new camera.  That address, `addr`, is the one
`std::make_unique` returns: any address, possibly one freed by an earlier
`removeCamera`. -/
def addCamera (w : World α) (addr : Nat) (name : String) (width height : Nat)
    (_fovx fovy near far : α) (shaderDir : String) : Nat × World α :=
  let d := if shaderDir.length ≠ 0 then shaderDir else w.mGlslDir
  let cam : OptifuserCamera α :=
    { mName := name, mWidth := width, mHeight := height, fovy := fovy,
      mScene := w.sceneAddr, shaderDir := d, near := near, far := far }
  (addr,
   { w with
     nextAddr := max w.nextAddr (addr + 1)
     log := w.log ++ [⟨LogLevel.warn,
       "Note: current camera implementation does not support non-square pixels, and fovy " ++
       "will take precedence."⟩]
     scene := { w.scene with mCameras := w.scene.mCameras ++ [(addr, cam)] } })

/-- Method `removeCamera(camera)`: erase-remove of the entries whose address is
`camera`. -/
def removeCamera (w : World α) (camera : Nat) : World α :=
  { w with scene := { w.scene with
      mCameras := w.scene.mCameras.filter (fun c => !decide (camera = c.1)) } }

/-- Method `getCameras()`. -/
def getCameras (w : World α) : List Nat :=
  w.scene.mCameras.foldl (fun cams cam => cams ++ [cam.1]) []

end OptifuserScene

/-! ## Call sequences on a body -/

/-- A call of one of the mutating methods of a body. -/
inductive BodyCall (α : Type) where
  | setUniqueId (uniqueId : Nat)
  | setSegmentationId (segmentationId : Nat)
  | setSegmentationCustomData (customData : List α)
  | setInitialPose (transform : PxTransform α)
  | update (transform : PxTransform α)
  | setVisible (visible : Bool)

/-- Perform one call on a body and the heap its handles point into. -/
def BodyCall.run {α : Type} [Zero α] [One α] (E : Env α) :
    BodyCall α → OptifuserRigidbody α × Heap α → OptifuserRigidbody α × Heap α
  | BodyCall.setUniqueId u, st => st.1.setUniqueId u st.2
  | BodyCall.setSegmentationId s, st => st.1.setSegmentationId s st.2
  | BodyCall.setSegmentationCustomData d, st => st.1.setSegmentationCustomData d st.2
  | BodyCall.setInitialPose t, st => st.1.setInitialPose E t st.2
  | BodyCall.update t, st => st.1.update E t st.2
  | BodyCall.setVisible v, st => st.1.setVisible v st.2

/-- Perform a sequence of calls, first call first. -/
def runCalls {α : Type} [Zero α] [One α] (E : Env α) (calls : List (BodyCall α))
    (st : OptifuserRigidbody α × Heap α) : OptifuserRigidbody α × Heap α :=
  calls.foldl (fun st c => c.run E st) st

/-- Every handle of the body carries the unique id the body reports. -/
def UniqueIdMirrored {α : Type} (b : OptifuserRigidbody α) (heap : Heap α) : Prop :=
  ∀ obj ∈ b.mObjects, (heap obj).objId = b.getUniqueId

/-- Every handle of the body carries the segmentation id the body reports. -/
def SegmentationIdMirrored {α : Type} (b : OptifuserRigidbody α) (heap : Heap α) : Prop :=
  ∀ obj ∈ b.mObjects, (heap obj).segmentId = b.getSegmentationId

instance {α : Type} (b : OptifuserRigidbody α) (heap : Heap α) :
    Decidable (UniqueIdMirrored b heap) := by
  unfold UniqueIdMirrored; infer_instance

instance {α : Type} (b : OptifuserRigidbody α) (heap : Heap α) :
    Decidable (SegmentationIdMirrored b heap) := by
  unfold SegmentationIdMirrored; infer_instance

/-! ## Ownership invariant of a scene -/

/-- What C++ ownership gives for a scene: the bodies in `mBodies` are distinct
objects, and so are the cameras in `mCameras`; every address in use was handed
out by the allocator; the handles of one body are distinct objects; two
different bodies share no handle. -/
def World.WF {α : Type} (w : World α) : Prop :=
  (w.scene.mBodies.map Prod.fst).Nodup ∧
  (w.scene.mCameras.map Prod.fst).Nodup ∧
  (∀ e ∈ w.scene.mBodies,
    e.1 < w.nextAddr ∧ e.2.mObjects.Nodup ∧ ∀ h ∈ e.2.mObjects, h < w.nextAddr) ∧
  (∀ c ∈ w.scene.mCameras, c.1 < w.nextAddr) ∧
  (∀ e1 ∈ w.scene.mBodies, ∀ e2 ∈ w.scene.mBodies, e1.1 ≠ e2.1 →
    ∀ h ∈ e1.2.mObjects, h ∉ e2.2.mObjects)

instance {α : Type} (w : World α) : Decidable w.WF := by
  unfold World.WF; infer_instance

/-! ## Call sequences on the cameras of a scene -/

/-- A call of `addCamera` (with the address the allocator returns for the new
camera) or of `removeCamera`. -/
inductive CameraCall (α : Type) where
  | addCamera (addr : Nat) (name : String) (width height : Nat) (fovx fovy near far : α)
      (shaderDir : String)
  | removeCamera (camera : Nat)
deriving DecidableEq

/-- Perform one camera call on the scene. -/
def CameraCall.run {α : Type} : CameraCall α → World α → World α
  | CameraCall.addCamera addr name width height fovx fovy near far shaderDir, w =>
    (OptifuserScene.addCamera w addr name width height fovx fovy near far shaderDir).2
  | CameraCall.removeCamera camera, w => OptifuserScene.removeCamera w camera

/-- Perform a sequence of camera calls, first call first. -/
def runCameraCalls {α : Type} (calls : List (CameraCall α)) (w : World α) : World α :=
  calls.foldl (fun w c => c.run w) w

/-- The allocator's guarantee for one call: the address of a new camera is not
the address of a camera alive in the scene. -/
def CameraCall.fresh {α : Type} : CameraCall α → World α → Bool
  | CameraCall.addCamera addr _ _ _ _ _ _ _ _, w => !(OptifuserScene.getCameras w).contains addr
  | CameraCall.removeCamera _, _ => true

/-- The allocator's guarantee along a sequence of camera calls. -/
def freshCameraCalls {α : Type} : List (CameraCall α) → World α → Bool
  | [], _ => true
  | x :: calls, w => x.fresh w && freshCameraCalls calls (x.run w)

/-! ## A concrete environment over the integers, for examples -/

/-- An object with every member zero or empty. -/
def zeroObject : Optifuser.Object Int :=
  { position := ⟨0, 0, 0⟩, rotation := ⟨1, 0, 0, 0⟩, scale := ⟨1, 1, 1⟩, visible := true,
    objId := 0, segmentId := 0, userData := [], kd := ⟨0, 0, 0, 0⟩, mesh := [] }

/-- Composition of rigid transforms in exact integer arithmetic:
translation `a.q.rotate(b.p) + a.p`, rotation `a.q * b.q`. -/
def mulInt (a b : PxTransform Int) : PxTransform Int :=
  { q := ⟨a.q.w * b.q.x + b.q.w * a.q.x + a.q.y * b.q.z - b.q.y * a.q.z,
          a.q.w * b.q.y + b.q.w * a.q.y + a.q.z * b.q.x - b.q.z * a.q.x,
          a.q.w * b.q.z + b.q.w * a.q.z + a.q.x * b.q.y - b.q.x * a.q.y,
          a.q.w * b.q.w - a.q.x * b.q.x - a.q.y * b.q.y - a.q.z * b.q.z⟩
    p := ⟨b.p.x * (2 * a.q.w * a.q.w - 1) + 2 * (a.q.y * b.p.z - a.q.z * b.p.y) * a.q.w
            + 2 * a.q.x * (a.q.x * b.p.x + a.q.y * b.p.y + a.q.z * b.p.z) + a.p.x,
          b.p.y * (2 * a.q.w * a.q.w - 1) + 2 * (a.q.z * b.p.x - a.q.x * b.p.z) * a.q.w
            + 2 * a.q.y * (a.q.x * b.p.x + a.q.y * b.p.y + a.q.z * b.p.z) + a.p.y,
          b.p.z * (2 * a.q.w * a.q.w - 1) + 2 * (a.q.x * b.p.y - a.q.y * b.p.x) * a.q.w
            + 2 * a.q.z * (a.q.x * b.p.x + a.q.y * b.p.y + a.q.z * b.p.z) + a.p.z⟩ }

/-- Example environment: a loader that knows one file with two objects. -/
def envInt : Env Int :=
  { mul := mulInt
    LoadObj := fun f =>
      if f = "two.obj" then [{ zeroObject with mesh := [1] }, { zeroObject with mesh := [2] }]
      else []
    NewFlatCube := { zeroObject with mesh := [10] }
    NewSphere := { zeroObject with mesh := [20] }
    NewYZPlane := { zeroObject with mesh := [30] }
    NewCapsule := fun r h => { zeroObject with mesh := [40, r, h] }
    NewMeshObject := fun vs _ => { zeroObject with mesh := vs.map (fun v => v.position.x) }
    mInitialPose0 := { q := PxIdentity, p := ⟨0, 0, 0⟩ }
    mUniqueId0 := 0
    mSegmentationId0 := 0 }

/-- Example heap: the object at address `a` carries the tags `a + 1`. -/
def heapInt : Heap Int := fun a => { zeroObject with objId := a + 1, segmentId := a + 1 }

/-- Example body over the handles 3 and 5, with a translated initial pose. -/
def bodyInt : OptifuserRigidbody Int :=
  { mParentScene := 0
    mInitialPose := { q := PxIdentity, p := ⟨1, 2, 3⟩ }
    mObjects := [3, 5]
    mUniqueId := 0
    mSegmentationId := 0 }

/-- Example world: an empty scene at address 0, next unused address 1. -/
def worldInt : World Int :=
  { heap := heapInt, nextAddr := 1, log := [], mGlslDir := "glsl_shader/130", sceneAddr := 0
    scene := OptifuserScene.new 0 "scene" }

/-- Example scene with two bodies: the body at address 3 over the two objects
of `two.obj` (handles 1 and 2), then a box body at address 5 (handle 4). -/
def worldTwo : World Int :=
  (OptifuserScene.addRigidbody_type envInt
    (OptifuserScene.addRigidbody_meshFile envInt worldInt "two.obj" ⟨2, 3, 4⟩).2
    PxGeometryType.eBOX ⟨1, 1, 1⟩ ⟨1, 0, 0⟩).2

/-- Example call sequence: a camera is added at address 1 and removed; the
next camera gets the freed address 1 again; a third camera is added at address
2; then the stale pointer 1 of the first camera is passed to `removeCamera`. -/
def cameraCallsInt : List (CameraCall Int) :=
  [CameraCall.addCamera 1 "front" 640 480 1 1 1 100 "",
   CameraCall.removeCamera 1,
   CameraCall.addCamera 1 "back" 640 480 1 1 1 100 "glsl",
   CameraCall.addCamera 2 "side" 640 480 1 1 1 100 "",
   CameraCall.removeCamera 1]

/-- A call of one of the adding or removing methods of a scene. -/
inductive SceneOp (α : Type) where
  | addRigidbody_meshFile (meshFile : String) (scale : PxVec3 α)
  | addRigidbody_points (points normals : List (PxVec3 α)) (indices : List Nat)
      (scale color : PxVec3 α)
  | addRigidbody_type (type : PxGeometryType) (scale color : PxVec3 α)
  | removeRigidbody (body : Nat)
  | camera (call : CameraCall α)

/-- Perform one scene call; `none` when the source reads out of range. -/
def SceneOp.run {α : Type} [One α] (E : Env α) : SceneOp α → World α → Option (World α)
  | SceneOp.addRigidbody_meshFile meshFile scale, w =>
    some (OptifuserScene.addRigidbody_meshFile E w meshFile scale).2
  | SceneOp.addRigidbody_points points normals indices scale color, w =>
    (OptifuserScene.addRigidbody_points E w points normals indices scale color).map Prod.snd
  | SceneOp.addRigidbody_type type scale color, w =>
    some (OptifuserScene.addRigidbody_type E w type scale color).2
  | SceneOp.removeRigidbody body, w => some (OptifuserScene.removeRigidbody w body)
  | SceneOp.camera call, w => some (call.run w)

/-- Perform a sequence of scene calls, first call first. -/
def runSceneOps {α : Type} [One α] (E : Env α) : List (SceneOp α) → World α → Option (World α)
  | [], w => some w
  | op :: ops, w => (op.run E w).bind (runSceneOps E ops)

/-- The allocator's guarantee for one scene call. -/
def SceneOp.fresh {α : Type} : SceneOp α → World α → Bool
  | SceneOp.camera call, w => call.fresh w
  | _, _ => true

/-- The allocator's guarantee along a sequence of scene calls. -/
def freshSceneOps {α : Type} [One α] (E : Env α) : List (SceneOp α) → World α → Bool
  | [], _ => true
  | op :: ops, w =>
    op.fresh w &&
      (match op.run E w with
       | some w1 => freshSceneOps E ops w1
       | none => true)

/-- The objects that Optifuser creates carry the ids a new body reports: the
unique id and the segmentation id of a new object are the member initialisers
of `mUniqueId` and `mSegmentationId`. -/
def Env.DefaultTags {α : Type} (E : Env α) : Prop :=
  (∀ meshFile, ∀ o ∈ E.LoadObj meshFile,
    o.objId = E.mUniqueId0 ∧ o.segmentId = E.mSegmentationId0) ∧
  (E.NewFlatCube.objId = E.mUniqueId0 ∧ E.NewFlatCube.segmentId = E.mSegmentationId0) ∧
  (E.NewSphere.objId = E.mUniqueId0 ∧ E.NewSphere.segmentId = E.mSegmentationId0) ∧
  (E.NewYZPlane.objId = E.mUniqueId0 ∧ E.NewYZPlane.segmentId = E.mSegmentationId0) ∧
  (∀ r h, (E.NewCapsule r h).objId = E.mUniqueId0 ∧
    (E.NewCapsule r h).segmentId = E.mSegmentationId0) ∧
  (∀ vertices indices, (E.NewMeshObject vertices indices).objId = E.mUniqueId0 ∧
    (E.NewMeshObject vertices indices).segmentId = E.mSegmentationId0)

/-- The id invariant of a body and the heap its handles point into: any two
handles carry the same unique-id tag and the same segmentation-id tag, and
every handle carries the ids that `getUniqueId()` and `getSegmentationId()`
return. -/
def TagsInvariant {α : Type} (st : OptifuserRigidbody α × Heap α) : Prop :=
  (∀ o1 ∈ st.1.mObjects, ∀ o2 ∈ st.1.mObjects,
    (st.2 o1).objId = (st.2 o2).objId ∧ (st.2 o1).segmentId = (st.2 o2).segmentId) ∧
  (∀ obj ∈ st.1.mObjects,
    (st.2 obj).objId = st.1.getUniqueId ∧ (st.2 obj).segmentId = st.1.getSegmentationId)

instance {α : Type} (st : OptifuserRigidbody α × Heap α) : Decidable (TagsInvariant st) := by
  unfold TagsInvariant; infer_instance

/-! ### Lemmas on the handle loop -/

section loop
variable {α : Type}

theorem forEachObj_nil (f : Optifuser.Object α → Optifuser.Object α) (heap : Heap α) :
    forEachObj [] f heap = heap := rfl

theorem forEachObj_cons (a : Nat) (l : List Nat)
    (f : Optifuser.Object α → Optifuser.Object α) (heap : Heap α) :
    forEachObj (a :: l) f heap = forEachObj l f (Heap.modify heap a f) := rfl

/-- An address outside the handle list keeps its object. -/
theorem forEachObj_frame (l : List Nat) (f : Optifuser.Object α → Optifuser.Object α)
    (heap : Heap α) (a : Nat) (ha : a ∉ l) : forEachObj l f heap a = heap a := by
  induction l generalizing heap with
  | nil => rfl
  | cons b l ih =>
    rw [forEachObj_cons, ih _ (fun h => ha (List.mem_cons_of_mem _ h))]
    have hne : a ≠ b := fun h => ha (h ▸ List.mem_cons_self _ _)
    simp [Heap.modify, hne]

/-- With an idempotent loop body, the object at any address is `f` of the old
one or the old one, according to whether the address is a handle. -/
theorem forEachObj_apply (l : List Nat) (f : Optifuser.Object α → Optifuser.Object α)
    (hf : ∀ o, f (f o) = f o) (heap : Heap α) (a : Nat) :
    forEachObj l f heap a = if a ∈ l then f (heap a) else heap a := by
  induction l generalizing heap with
  | nil => simp [forEachObj_nil]
  | cons b l ih =>
    rw [forEachObj_cons, ih]
    by_cases hab : a = b
    · subst hab
      by_cases hal : a ∈ l <;> simp [Heap.modify, hal, hf]
    · by_cases hal : a ∈ l <;> simp [Heap.modify, hal, hab]

theorem forEachObj_mem (l : List Nat) (f : Optifuser.Object α → Optifuser.Object α)
    (hf : ∀ o, f (f o) = f o) (heap : Heap α) (a : Nat) (ha : a ∈ l) :
    forEachObj l f heap a = f (heap a) := by
  rw [forEachObj_apply l f hf, if_pos ha]

end loop

/-! ## Pose updates -/

section pose
variable {α : Type}

theorem writePose_idem (pose : PxTransform α) (o : Optifuser.Object α) :
    OptifuserRigidbody.writePose pose (OptifuserRigidbody.writePose pose o)
      = OptifuserRigidbody.writePose pose o := rfl

/-- C1: after `update(T)` on a body with cached initial pose `P`, the body is
unchanged and every handle it owns has the translation of `T * P` as position
and the quaternion of `T * P`, given as (w, x, y, z), as rotation. -/
theorem update_writes_composed_pose (E : Env α) (b : OptifuserRigidbody α)
    (T : PxTransform α) (heap : Heap α) :
    (b.update E T heap).1 = b ∧
    ∀ obj ∈ b.mObjects,
      ((b.update E T heap).2 obj).position
        = { x := (E.mul T b.mInitialPose).p.x
            y := (E.mul T b.mInitialPose).p.y
            z := (E.mul T b.mInitialPose).p.z } ∧
      ((b.update E T heap).2 obj).rotation
        = { w := (E.mul T b.mInitialPose).q.w
            x := (E.mul T b.mInitialPose).q.x
            y := (E.mul T b.mInitialPose).q.y
            z := (E.mul T b.mInitialPose).q.z } := by
  refine ⟨rfl, fun obj hobj => ?_⟩
  have h := forEachObj_mem b.mObjects
    (OptifuserRigidbody.writePose (E.mul T b.mInitialPose)) (writePose_idem _) heap obj hobj
  simp only [OptifuserRigidbody.update, h]
  exact ⟨rfl, rfl⟩

/-- Example for C1: translating the example body (initial pose (1, 2, 3)) by
(10, 20, 30) puts handle 5 at (11, 22, 33) with the identity rotation. -/
theorem update_writes_composed_pose_witness :
    5 ∈ bodyInt.mObjects ∧
    ((bodyInt.update envInt { q := PxIdentity, p := ⟨10, 20, 30⟩ } heapInt).2 5).position
      = ⟨11, 22, 33⟩ ∧
    ((bodyInt.update envInt { q := PxIdentity, p := ⟨10, 20, 30⟩ } heapInt).2 5).rotation
      = ⟨1, 0, 0, 0⟩ :=
  ⟨by decide,
   (update_writes_composed_pose envInt bodyInt { q := PxIdentity, p := ⟨10, 20, 30⟩ }
      heapInt).2 5 (by decide)⟩

/-- C9: `setInitialPose(P)` caches `P` and is an `update` with the transform
(zero translation, identity rotation); whatever the heap held before (for
instance poses written by earlier `update` calls), every handle then has the
position and rotation (w, x, y, z) of `identity * P`, which are those of `P`
when PhysX composition gives `identity * P = P`. -/
theorem setInitialPose_applies_identity [Zero α] [One α] (E : Env α)
    (b : OptifuserRigidbody α) (P : PxTransform α) (heap : Heap α) :
    (b.setInitialPose E P heap).1.mInitialPose = P ∧
    b.setInitialPose E P heap
      = OptifuserRigidbody.update E { b with mInitialPose := P }
          { p := ⟨0, 0, 0⟩, q := PxIdentity } heap ∧
    (∀ obj ∈ b.mObjects,
      ((b.setInitialPose E P heap).2 obj).position
        = { x := (E.mul { p := ⟨0, 0, 0⟩, q := PxIdentity } P).p.x
            y := (E.mul { p := ⟨0, 0, 0⟩, q := PxIdentity } P).p.y
            z := (E.mul { p := ⟨0, 0, 0⟩, q := PxIdentity } P).p.z } ∧
      ((b.setInitialPose E P heap).2 obj).rotation
        = { w := (E.mul { p := ⟨0, 0, 0⟩, q := PxIdentity } P).q.w
            x := (E.mul { p := ⟨0, 0, 0⟩, q := PxIdentity } P).q.x
            y := (E.mul { p := ⟨0, 0, 0⟩, q := PxIdentity } P).q.y
            z := (E.mul { p := ⟨0, 0, 0⟩, q := PxIdentity } P).q.z }) ∧
    (E.mul { p := ⟨0, 0, 0⟩, q := PxIdentity } P = P →
      ∀ obj ∈ b.mObjects,
        ((b.setInitialPose E P heap).2 obj).position = { x := P.p.x, y := P.p.y, z := P.p.z } ∧
        ((b.setInitialPose E P heap).2 obj).rotation
          = { w := P.q.w, x := P.q.x, y := P.q.y, z := P.q.z }) := by
  have key := (update_writes_composed_pose E { b with mInitialPose := P }
    { p := ⟨0, 0, 0⟩, q := PxIdentity } heap).2
  refine ⟨rfl, rfl, key, fun hid obj hobj => ?_⟩
  have h := key obj hobj
  simp only [hid] at h
  exact h

/-- Example for C9: after an earlier `update` by (10, 20, 30), setting the
initial pose to a half turn about z at (4, 5, 6) leaves handle 3 exactly there. -/
theorem setInitialPose_applies_identity_witness :
    mulInt { p := ⟨0, 0, 0⟩, q := PxIdentity } { q := ⟨0, 0, 1, 0⟩, p := ⟨4, 5, 6⟩ }
      = { q := ⟨0, 0, 1, 0⟩, p := ⟨4, 5, 6⟩ } ∧
    3 ∈ bodyInt.mObjects ∧
    ((bodyInt.setInitialPose envInt { q := ⟨0, 0, 1, 0⟩, p := ⟨4, 5, 6⟩ }
        (bodyInt.update envInt { q := PxIdentity, p := ⟨10, 20, 30⟩ } heapInt).2).2 3).position
      = ⟨4, 5, 6⟩ ∧
    ((bodyInt.setInitialPose envInt { q := ⟨0, 0, 1, 0⟩, p := ⟨4, 5, 6⟩ }
        (bodyInt.update envInt { q := PxIdentity, p := ⟨10, 20, 30⟩ } heapInt).2).2 3).rotation
      = ⟨0, 0, 0, 1⟩ :=
  ⟨by decide, by decide,
   (setInitialPose_applies_identity envInt bodyInt { q := ⟨0, 0, 1, 0⟩, p := ⟨4, 5, 6⟩ }
      (bodyInt.update envInt { q := PxIdentity, p := ⟨10, 20, 30⟩ } heapInt).2).2.2.2
      (by decide) 3 (by decide)⟩

end pose

/-! ## Id tags -/

section tags
variable {α : Type}

/-- A member that the loop body does not change is the same at every address
after the loop. -/
theorem forEachObj_proj {β : Type} (g : Optifuser.Object α → β) (l : List Nat)
    (f : Optifuser.Object α → Optifuser.Object α) (hf : ∀ o, g (f o) = g o)
    (heap : Heap α) (a : Nat) : g (forEachObj l f heap a) = g (heap a) := by
  induction l generalizing heap with
  | nil => rfl
  | cons b l ih =>
    rw [forEachObj_cons, ih]
    by_cases hab : a = b <;> simp [Heap.modify, hab, hf]

theorem BodyCall.run_mObjects [Zero α] [One α] (E : Env α) (c : BodyCall α)
    (st : OptifuserRigidbody α × Heap α) : (c.run E st).1.mObjects = st.1.mObjects := by
  cases c <;> rfl

theorem runCalls_mObjects [Zero α] [One α] (E : Env α) (calls : List (BodyCall α))
    (st : OptifuserRigidbody α × Heap α) : (runCalls E calls st).1.mObjects = st.1.mObjects := by
  induction calls generalizing st with
  | nil => rfl
  | cons c cs ih =>
    show (runCalls E cs (c.run E st)).1.mObjects = _
    rw [ih, BodyCall.run_mObjects]

/-- One call keeps the unique-id tags mirrored, and `setUniqueId` mirrors them. -/
theorem BodyCall.run_uniqueId [Zero α] [One α] (E : Env α) (c : BodyCall α)
    (st : OptifuserRigidbody α × Heap α)
    (h : UniqueIdMirrored st.1 st.2 ∨ ∃ u, c = BodyCall.setUniqueId u) :
    UniqueIdMirrored (c.run E st).1 (c.run E st).2 := by
  obtain ⟨b, heap⟩ := st
  cases c with
  | setUniqueId u =>
    intro obj hobj
    have hm := forEachObj_mem b.mObjects (fun o => { o with objId := u })
      (fun _ => rfl) heap obj hobj
    simp only [BodyCall.run, OptifuserRigidbody.setUniqueId, hm]
    rfl
  | setSegmentationId s =>
    rcases h with h | ⟨u, hu⟩
    · intro obj hobj
      have hp := forEachObj_proj (fun o => o.objId) b.mObjects
        (fun o : Optifuser.Object α => { o with segmentId := s }) (fun _ => rfl) heap obj
      exact hp.trans (h obj hobj)
    · cases hu
  | setSegmentationCustomData d =>
    rcases h with h | ⟨u, hu⟩
    · intro obj hobj
      have hp := forEachObj_proj (fun o => o.objId) b.mObjects
        (fun o : Optifuser.Object α => { o with userData := d }) (fun _ => rfl) heap obj
      exact hp.trans (h obj hobj)
    · cases hu
  | setInitialPose t =>
    rcases h with h | ⟨u, hu⟩
    · intro obj hobj
      have hp := forEachObj_proj (fun o => o.objId) b.mObjects
        (OptifuserRigidbody.writePose (E.mul { p := ⟨0, 0, 0⟩, q := PxIdentity } t))
        (fun _ => rfl) heap obj
      exact hp.trans (h obj hobj)
    · cases hu
  | update t =>
    rcases h with h | ⟨u, hu⟩
    · intro obj hobj
      have hp := forEachObj_proj (fun o => o.objId) b.mObjects
        (OptifuserRigidbody.writePose (E.mul t b.mInitialPose)) (fun _ => rfl) heap obj
      exact hp.trans (h obj hobj)
    · cases hu
  | setVisible v =>
    rcases h with h | ⟨u, hu⟩
    · intro obj hobj
      have hp := forEachObj_proj (fun o => o.objId) b.mObjects
        (fun o : Optifuser.Object α => { o with visible := v }) (fun _ => rfl) heap obj
      exact hp.trans (h obj hobj)
    · cases hu

/-- One call keeps the segmentation-id tags mirrored, and `setSegmentationId`
mirrors them. -/
theorem BodyCall.run_segmentationId [Zero α] [One α] (E : Env α) (c : BodyCall α)
    (st : OptifuserRigidbody α × Heap α)
    (h : SegmentationIdMirrored st.1 st.2 ∨ ∃ s, c = BodyCall.setSegmentationId s) :
    SegmentationIdMirrored (c.run E st).1 (c.run E st).2 := by
  obtain ⟨b, heap⟩ := st
  cases c with
  | setSegmentationId s =>
    intro obj hobj
    have hm := forEachObj_mem b.mObjects (fun o => { o with segmentId := s })
      (fun _ => rfl) heap obj hobj
    simp only [BodyCall.run, OptifuserRigidbody.setSegmentationId, hm]
    rfl
  | setUniqueId u =>
    rcases h with h | ⟨s, hs⟩
    · intro obj hobj
      have hp := forEachObj_proj (fun o => o.segmentId) b.mObjects
        (fun o : Optifuser.Object α => { o with objId := u }) (fun _ => rfl) heap obj
      exact hp.trans (h obj hobj)
    · cases hs
  | setSegmentationCustomData d =>
    rcases h with h | ⟨s, hs⟩
    · intro obj hobj
      have hp := forEachObj_proj (fun o => o.segmentId) b.mObjects
        (fun o : Optifuser.Object α => { o with userData := d }) (fun _ => rfl) heap obj
      exact hp.trans (h obj hobj)
    · cases hs
  | setInitialPose t =>
    rcases h with h | ⟨s, hs⟩
    · intro obj hobj
      have hp := forEachObj_proj (fun o => o.segmentId) b.mObjects
        (OptifuserRigidbody.writePose (E.mul { p := ⟨0, 0, 0⟩, q := PxIdentity } t))
        (fun _ => rfl) heap obj
      exact hp.trans (h obj hobj)
    · cases hs
  | update t =>
    rcases h with h | ⟨s, hs⟩
    · intro obj hobj
      have hp := forEachObj_proj (fun o => o.segmentId) b.mObjects
        (OptifuserRigidbody.writePose (E.mul t b.mInitialPose)) (fun _ => rfl) heap obj
      exact hp.trans (h obj hobj)
    · cases hs
  | setVisible v =>
    rcases h with h | ⟨s, hs⟩
    · intro obj hobj
      have hp := forEachObj_proj (fun o => o.segmentId) b.mObjects
        (fun o : Optifuser.Object α => { o with visible := v }) (fun _ => rfl) heap obj
      exact hp.trans (h obj hobj)
    · cases hs

theorem runCalls_uniqueId [Zero α] [One α] (E : Env α) (calls : List (BodyCall α))
    (st : OptifuserRigidbody α × Heap α)
    (h : UniqueIdMirrored st.1 st.2 ∨ ∃ u, BodyCall.setUniqueId u ∈ calls) :
    UniqueIdMirrored (runCalls E calls st).1 (runCalls E calls st).2 := by
  induction calls generalizing st with
  | nil =>
    rcases h with h | ⟨u, hu⟩
    · exact h
    · cases hu
  | cons c cs ih =>
    show UniqueIdMirrored (runCalls E cs (c.run E st)).1 (runCalls E cs (c.run E st)).2
    rcases h with h | ⟨u, hu⟩
    · exact ih _ (Or.inl (BodyCall.run_uniqueId E c st (Or.inl h)))
    · rcases List.mem_cons.1 hu with hc | hcs
      · exact ih _ (Or.inl (BodyCall.run_uniqueId E c st (Or.inr ⟨u, hc.symm⟩)))
      · exact ih _ (Or.inr ⟨u, hcs⟩)

theorem runCalls_segmentationId [Zero α] [One α] (E : Env α) (calls : List (BodyCall α))
    (st : OptifuserRigidbody α × Heap α)
    (h : SegmentationIdMirrored st.1 st.2 ∨ ∃ s, BodyCall.setSegmentationId s ∈ calls) :
    SegmentationIdMirrored (runCalls E calls st).1 (runCalls E calls st).2 := by
  induction calls generalizing st with
  | nil =>
    rcases h with h | ⟨s, hs⟩
    · exact h
    · cases hs
  | cons c cs ih =>
    show SegmentationIdMirrored (runCalls E cs (c.run E st)).1 (runCalls E cs (c.run E st)).2
    rcases h with h | ⟨s, hs⟩
    · exact ih _ (Or.inl (BodyCall.run_segmentationId E c st (Or.inl h)))
    · rcases List.mem_cons.1 hs with hc | hcs
      · exact ih _ (Or.inl (BodyCall.run_segmentationId E c st (Or.inr ⟨s, hc.symm⟩)))
      · exact ih _ (Or.inr ⟨s, hcs⟩)

/-- The two mirrored tags together give the id invariant. -/
theorem tagsInvariant_of_mirrored (st : OptifuserRigidbody α × Heap α)
    (hu : UniqueIdMirrored st.1 st.2) (hs : SegmentationIdMirrored st.1 st.2) :
    TagsInvariant st := by
  refine ⟨fun o1 h1 o2 h2 => ⟨?_, ?_⟩, fun obj hobj => ⟨hu obj hobj, hs obj hobj⟩⟩
  · rw [hu o1 h1, hu o2 h2]
  · rw [hs o1 h1, hs o2 h2]

/-- A sequence of calls on a body whose handles carry the ids the body reports
leaves it so. -/
theorem runCalls_tagsInvariant [Zero α] [One α] (E : Env α) (calls : List (BodyCall α))
    (st : OptifuserRigidbody α × Heap α)
    (hu : UniqueIdMirrored st.1 st.2) (hs : SegmentationIdMirrored st.1 st.2) :
    TagsInvariant (runCalls E calls st) :=
  tagsInvariant_of_mirrored _ (runCalls_uniqueId E calls st (Or.inl hu))
    (runCalls_segmentationId E calls st (Or.inl hs))

end tags

/-! ## Adding bodies -/

section add
variable {α : Type}

open OptifuserScene

theorem allocObjects_addrs (l : List (Optifuser.Object α)) (heap : Heap α) (next : Nat) :
    (allocObjects l heap next).1 = List.range' next l.length := by
  induction l generalizing heap next with
  | nil => rfl
  | cons o l ih => simp [allocObjects, ih, List.range'_succ]

theorem allocObjects_next (l : List (Optifuser.Object α)) (heap : Heap α) (next : Nat) :
    (allocObjects l heap next).2.2 = next + l.length := by
  induction l generalizing heap next with
  | nil => rfl
  | cons o l ih => simp [allocObjects, ih]; omega

/-- Allocation leaves the addresses below `next` as they were. -/
theorem allocObjects_frame (l : List (Optifuser.Object α)) (heap : Heap α) (next : Nat)
    (a : Nat) (ha : a < next) : (allocObjects l heap next).2.1 a = heap a := by
  induction l generalizing heap next with
  | nil => rfl
  | cons o l ih =>
    simp only [allocObjects]
    rw [ih _ _ (by omega)]
    have hne : a ≠ next := by omega
    simp [Heap.store, hne]

/-- After allocation the `i`-th loaded object is found at address `next + i`. -/
theorem allocObjects_get (l : List (Optifuser.Object α)) (heap : Heap α) (next : Nat)
    (i : Nat) (o : Optifuser.Object α) (hi : l[i]? = some o) :
    (allocObjects l heap next).2.1 (next + i) = o := by
  induction l generalizing heap next i with
  | nil => simp at hi
  | cons o1 l ih =>
    simp only [allocObjects]
    cases i with
    | zero =>
      simp only [List.getElem?_cons_zero, Option.some.injEq] at hi
      have hf := allocObjects_frame l (Heap.store heap next o1) (next + 1) next (by omega)
      show (allocObjects l (Heap.store heap next o1) (next + 1)).2.1 next = o
      rw [hf]
      simp [Heap.store, hi]
    | succ j =>
      simp only [List.getElem?_cons_succ] at hi
      have h := ih (Heap.store heap next o1) (next + 1) j hi
      rw [show next + (j + 1) = next + 1 + j by omega]
      exact h

theorem allocObjects_nil_iff (l : List (Optifuser.Object α)) (heap : Heap α) (next : Nat) :
    (allocObjects l heap next).1.isEmpty = l.isEmpty := by
  cases l <;> rfl

/-- The loop over the loaded objects is the handle loop setting the scale; it
pushes the addresses in order and registers each of them. -/
theorem loadLoop_eq (scale : PxVec3 α) (addrs : List Nat) (heap : Heap α) (objs : List Nat)
    (mScene : Optifuser.Scene) :
    loadLoop scale addrs (heap, objs, mScene)
      = (forEachObj addrs (setScale scale) heap,
         objs ++ addrs,
         { calls := mScene.calls ++ addrs.map Optifuser.SceneCall.addObject }) := by
  induction addrs generalizing heap objs mScene with
  | nil => simp [loadLoop, forEachObj_nil]
  | cons a l ih =>
    simp only [loadLoop]
    rw [ih]
    simp [forEachObj_cons, Optifuser.Scene.addObject]

/-- C3: when the loader returns the empty list, `addRigidbody(meshFile, scale)`
returns null, appends exactly one entry to the log, an error, and changes
nothing else: the scene (body list, cameras, render-scene calls), the heap and
the allocator are as before. -/
theorem addRigidbody_meshFile_load_failure (E : Env α) (w : World α) (meshFile : String)
    (scale : PxVec3 α) (hload : E.LoadObj meshFile = []) :
    (addRigidbody_meshFile E w meshFile scale).1 = none ∧
    (addRigidbody_meshFile E w meshFile scale).2.log
      = w.log ++ [⟨LogLevel.error, "Failed to load damaged file: " ++ meshFile⟩] ∧
    (addRigidbody_meshFile E w meshFile scale).2.scene = w.scene ∧
    (addRigidbody_meshFile E w meshFile scale).2.scene.mBodies = w.scene.mBodies ∧
    (addRigidbody_meshFile E w meshFile scale).2.scene.mScene.calls = w.scene.mScene.calls ∧
    (addRigidbody_meshFile E w meshFile scale).2.heap = w.heap ∧
    (addRigidbody_meshFile E w meshFile scale).2.nextAddr = w.nextAddr := by
  simp [addRigidbody_meshFile, hload, allocObjects]

/-- Example for C3: the example loader does not know `missing.obj`. -/
theorem addRigidbody_meshFile_load_failure_witness :
    envInt.LoadObj "missing.obj" = [] ∧
    (addRigidbody_meshFile envInt worldInt "missing.obj" ⟨1, 1, 1⟩).1 = none ∧
    (addRigidbody_meshFile envInt worldInt "missing.obj" ⟨1, 1, 1⟩).2.log
      = [⟨LogLevel.error, "Failed to load damaged file: missing.obj"⟩] ∧
    (addRigidbody_meshFile envInt worldInt "missing.obj" ⟨1, 1, 1⟩).2.scene.mBodies = [] :=
  ⟨by decide,
   (addRigidbody_meshFile_load_failure envInt worldInt "missing.obj" ⟨1, 1, 1⟩ (by decide)).1,
   (addRigidbody_meshFile_load_failure envInt worldInt "missing.obj" ⟨1, 1, 1⟩ (by decide)).2.1,
   (addRigidbody_meshFile_load_failure envInt worldInt "missing.obj" ⟨1, 1, 1⟩
      (by decide)).2.2.2.1⟩

/-- The outcome of `addRigidbody(meshFile, scale)` when the loader returns a
non-empty list. -/
theorem addRigidbody_meshFile_of_ne (E : Env α) (w : World α) (meshFile : String)
    (scale : PxVec3 α) (hload : E.LoadObj meshFile ≠ []) :
    addRigidbody_meshFile E w meshFile scale
      = (some (w.nextAddr + (E.LoadObj meshFile).length),
         { w with
           heap := forEachObj (List.range' w.nextAddr (E.LoadObj meshFile).length)
             (setScale scale) (allocObjects (E.LoadObj meshFile) w.heap w.nextAddr).2.1
           nextAddr := w.nextAddr + (E.LoadObj meshFile).length + 1
           scene := { w.scene with
             mScene := ⟨w.scene.mScene.calls ++
               List.map Optifuser.SceneCall.addObject
                 (List.range' w.nextAddr (E.LoadObj meshFile).length)⟩
             mBodies := w.scene.mBodies ++
               [(w.nextAddr + (E.LoadObj meshFile).length,
                 OptifuserRigidbody.new E w.sceneAddr
                   (List.range' w.nextAddr (E.LoadObj meshFile).length))] } }) := by
  have hne : ¬ ((allocObjects (E.LoadObj meshFile) w.heap w.nextAddr).1.isEmpty = true) := by
    rw [allocObjects_nil_iff]
    cases hl : E.LoadObj meshFile with
    | nil => exact absurd hl hload
    | cons o l => simp
  simp only [addRigidbody_meshFile]
  rw [if_neg hne]
  simp only [loadLoop_eq, allocObjects_addrs, allocObjects_next, List.nil_append]

/-- The outcome of `addRigidbody(meshFile, scale)` when the loader returns the
empty list: no body. -/
theorem addRigidbody_meshFile_of_nil (E : Env α) (w : World α) (meshFile : String)
    (scale : PxVec3 α) (hload : E.LoadObj meshFile = []) :
    (addRigidbody_meshFile E w meshFile scale).1 = none := by
  simp [addRigidbody_meshFile, hload, allocObjects]

/-- After the loop, the object at the address of the `i`-th loaded object is
that object with the scale set. -/
theorem loaded_object_scaled (l : List (Optifuser.Object α)) (heap : Heap α) (next : Nat)
    (scale : PxVec3 α) (i : Nat) (o : Optifuser.Object α) (hio : l[i]? = some o) :
    forEachObj (List.range' next l.length) (setScale scale) (allocObjects l heap next).2.1
      (next + i) = setScale scale o := by
  have hi : i < l.length := (List.getElem?_eq_some.1 hio).1
  have hmem : next + i ∈ List.range' next l.length := by
    rw [List.mem_range'_1]; omega
  rw [forEachObj_mem _ (setScale scale) (fun _ => rfl) _ _ hmem,
    allocObjects_get _ _ _ _ _ hio]

/-- C5: when the loader returns a non-empty list of n objects,
`addRigidbody(meshFile, s)` returns a new body `b` appended at the end of the
body list (the earlier entries are kept as they were); the handle list of `b`
has length n and its `i`-th handle points at the `i`-th loaded object, which
has its scale set to (s.x, s.y, s.z) and is otherwise as loaded; every handle
of `b` is registered with the render scene (one `addObject` per handle, in
order); objects that existed before, the cameras and the log are unchanged. -/
theorem addRigidbody_meshFile_success (E : Env α) (w : World α) (meshFile : String)
    (scale : PxVec3 α) (hload : E.LoadObj meshFile ≠ []) :
    ∃ b : OptifuserRigidbody α,
      (addRigidbody_meshFile E w meshFile scale).1
        = some (w.nextAddr + (E.LoadObj meshFile).length) ∧
      (addRigidbody_meshFile E w meshFile scale).2.scene.mBodies
        = w.scene.mBodies ++ [(w.nextAddr + (E.LoadObj meshFile).length, b)] ∧
      b = OptifuserRigidbody.new E w.sceneAddr
            (List.range' w.nextAddr (E.LoadObj meshFile).length) ∧
      b.mObjects = List.range' w.nextAddr (E.LoadObj meshFile).length ∧
      b.mObjects.length = (E.LoadObj meshFile).length ∧
      b.mParentScene = w.sceneAddr ∧
      (∀ i o, (E.LoadObj meshFile)[i]? = some o →
        b.mObjects[i]? = some (w.nextAddr + i) ∧
        (addRigidbody_meshFile E w meshFile scale).2.heap (w.nextAddr + i)
          = { o with scale := ⟨scale.x, scale.y, scale.z⟩ }) ∧
      (∀ obj ∈ b.mObjects,
        ((addRigidbody_meshFile E w meshFile scale).2.heap obj).scale
          = ⟨scale.x, scale.y, scale.z⟩ ∧
        Optifuser.SceneCall.addObject obj
          ∈ (addRigidbody_meshFile E w meshFile scale).2.scene.mScene.calls) ∧
      (addRigidbody_meshFile E w meshFile scale).2.scene.mScene.calls
        = w.scene.mScene.calls ++ b.mObjects.map Optifuser.SceneCall.addObject ∧
      (∀ a, a < w.nextAddr → (addRigidbody_meshFile E w meshFile scale).2.heap a = w.heap a) ∧
      (addRigidbody_meshFile E w meshFile scale).2.scene.mCameras = w.scene.mCameras ∧
      (addRigidbody_meshFile E w meshFile scale).2.log = w.log := by
  rw [addRigidbody_meshFile_of_ne E w meshFile scale hload]
  refine ⟨OptifuserRigidbody.new E w.sceneAddr
      (List.range' w.nextAddr (E.LoadObj meshFile).length),
    rfl, rfl, rfl, rfl, ?_, rfl, fun i o hio => ⟨?_, ?_⟩, fun obj hobj => ⟨?_, ?_⟩,
    rfl, fun a ha => ?_, rfl, rfl⟩
  · simp [OptifuserRigidbody.new]
  · have hi : i < (E.LoadObj meshFile).length := (List.getElem?_eq_some.1 hio).1
    simp [OptifuserRigidbody.new, List.getElem?_range', hi]
  · exact loaded_object_scaled _ _ _ scale i o hio
  · have hobj2 : obj ∈ List.range' w.nextAddr (E.LoadObj meshFile).length := hobj
    show (forEachObj _ (setScale scale) _ obj).scale = _
    rw [forEachObj_mem _ (setScale scale) (fun _ => rfl) _ _ hobj2]
    rfl
  · have hobj2 : obj ∈ List.range' w.nextAddr (E.LoadObj meshFile).length := hobj
    exact List.mem_append_right _ (List.mem_map_of_mem _ hobj2)
  · have hnot : a ∉ List.range' w.nextAddr (E.LoadObj meshFile).length := by
      rw [List.mem_range'_1]; omega
    show forEachObj _ (setScale scale) _ a = _
    rw [forEachObj_frame _ _ _ _ hnot, allocObjects_frame _ _ _ _ ha]

/-- Example for C5: loading the two objects of `two.obj` with scale (2, 3, 4)
into the example world (next address 1) returns the body at address 3, last in
the body list, whose handles are 1 and 2; handle 2 points at the second loaded
object, scaled; both handles are registered. -/
theorem addRigidbody_meshFile_success_witness :
    envInt.LoadObj "two.obj" ≠ [] ∧
    ∃ b : OptifuserRigidbody Int,
      (addRigidbody_meshFile envInt worldInt "two.obj" ⟨2, 3, 4⟩).1 = some 3 ∧
      (addRigidbody_meshFile envInt worldInt "two.obj" ⟨2, 3, 4⟩).2.scene.mBodies = [(3, b)] ∧
      b.mObjects = [1, 2] ∧
      b.mObjects[1]? = some 2 ∧
      (addRigidbody_meshFile envInt worldInt "two.obj" ⟨2, 3, 4⟩).2.heap 2
        = { zeroObject with mesh := [2], scale := ⟨2, 3, 4⟩ } ∧
      (addRigidbody_meshFile envInt worldInt "two.obj" ⟨2, 3, 4⟩).2.scene.mScene.calls
        = [Optifuser.SceneCall.addObject 1, Optifuser.SceneCall.addObject 2] :=
  ⟨by decide,
   match addRigidbody_meshFile_success envInt worldInt "two.obj" ⟨2, 3, 4⟩ (by decide) with
   | ⟨b, h1, h2, hb, h3, _, _, h4, _, h5, _, _, _⟩ =>
     ⟨b, h1, h2, h3, (h4 1 { zeroObject with mesh := [2] } (by decide)).1,
      (h4 1 { zeroObject with mesh := [2] } (by decide)).2, by rw [h5, h3]; decide⟩⟩

/-- C4: for a geometry type other than box, sphere, plane and capsule,
`addRigidbody(type, scale, color)` returns null, appends exactly one entry to
the log, an error, and changes nothing else (scene, heap, allocator); and the
result is non-null exactly for box, sphere, plane and capsule. -/
theorem addRigidbody_type_unsupported [One α] (E : Env α) (w : World α)
    (type : PxGeometryType) (scale color : PxVec3 α) :
    ((type ≠ PxGeometryType.eBOX ∧ type ≠ PxGeometryType.eSPHERE ∧
        type ≠ PxGeometryType.ePLANE ∧ type ≠ PxGeometryType.eCAPSULE) →
      (addRigidbody_type E w type scale color).1 = none ∧
      (addRigidbody_type E w type scale color).2.log
        = w.log ++ [⟨LogLevel.error, "Failed to add Rididbody: unimplemented shape"⟩] ∧
      (addRigidbody_type E w type scale color).2.scene = w.scene ∧
      (addRigidbody_type E w type scale color).2.heap = w.heap ∧
      (addRigidbody_type E w type scale color).2.nextAddr = w.nextAddr) ∧
    ((addRigidbody_type E w type scale color).1 ≠ none ↔
      (type = PxGeometryType.eBOX ∨ type = PxGeometryType.eSPHERE ∨
        type = PxGeometryType.ePLANE ∨ type = PxGeometryType.eCAPSULE)) := by
  cases type <;> simp [addRigidbody_type, finishPrimitive]

/-- Example for C4: a convex mesh is not a supported primitive. -/
theorem addRigidbody_type_unsupported_witness :
    (PxGeometryType.eCONVEXMESH ≠ PxGeometryType.eBOX ∧
      PxGeometryType.eCONVEXMESH ≠ PxGeometryType.eSPHERE ∧
      PxGeometryType.eCONVEXMESH ≠ PxGeometryType.ePLANE ∧
      PxGeometryType.eCONVEXMESH ≠ PxGeometryType.eCAPSULE) ∧
    (addRigidbody_type envInt worldInt PxGeometryType.eCONVEXMESH ⟨1, 2, 3⟩ ⟨4, 5, 6⟩).1
      = none ∧
    (addRigidbody_type envInt worldInt PxGeometryType.eCONVEXMESH ⟨1, 2, 3⟩ ⟨4, 5, 6⟩).2.log
      = [⟨LogLevel.error, "Failed to add Rididbody: unimplemented shape"⟩] ∧
    (addRigidbody_type envInt worldInt PxGeometryType.eCONVEXMESH ⟨1, 2, 3⟩
      ⟨4, 5, 6⟩).2.scene.mBodies = [] :=
  ⟨by decide,
   ((addRigidbody_type_unsupported envInt worldInt PxGeometryType.eCONVEXMESH ⟨1, 2, 3⟩
      ⟨4, 5, 6⟩).1 (by decide)).1,
   ((addRigidbody_type_unsupported envInt worldInt PxGeometryType.eCONVEXMESH ⟨1, 2, 3⟩
      ⟨4, 5, 6⟩).1 (by decide)).2.1,
   congrArg OptifuserScene.mBodies
     ((addRigidbody_type_unsupported envInt worldInt PxGeometryType.eCONVEXMESH ⟨1, 2, 3⟩
        ⟨4, 5, 6⟩).1 (by decide)).2.2.1⟩

/-- C6: `addRigidbody(eCAPSULE, (r, h, z), color)` returns a new body `b`,
last in the body list, whose handle list has exactly one handle; the object of
that handle has scale (1, 1, 1) and is `NewCapsule(r, h)` with that scale and
the colour; the whole outcome is the same for every third component; for box,
sphere and plane the one handle of the new body has scale (x, y, z). -/
theorem addRigidbody_type_scale [One α] (E : Env α) (w : World α) (scale color : PxVec3 α) :
    (∃ b : OptifuserRigidbody α,
      (addRigidbody_type E w PxGeometryType.eCAPSULE scale color).1 = some (w.nextAddr + 1) ∧
      (addRigidbody_type E w PxGeometryType.eCAPSULE scale color).2.scene.mBodies
        = w.scene.mBodies ++ [(w.nextAddr + 1, b)] ∧
      b.mObjects = [w.nextAddr] ∧
      b.mObjects.length = 1 ∧
      (∀ obj ∈ b.mObjects,
        ((addRigidbody_type E w PxGeometryType.eCAPSULE scale color).2.heap obj).scale
          = ⟨1, 1, 1⟩ ∧
        (addRigidbody_type E w PxGeometryType.eCAPSULE scale color).2.heap obj
          = { E.NewCapsule scale.x scale.y with
              scale := ⟨1, 1, 1⟩, kd := ⟨color.x, color.y, color.z, 1⟩ })) ∧
    (∀ z : α,
      addRigidbody_type E w PxGeometryType.eCAPSULE ⟨scale.x, scale.y, z⟩ color
        = addRigidbody_type E w PxGeometryType.eCAPSULE scale color) ∧
    (∃ b : OptifuserRigidbody α,
      (addRigidbody_type E w PxGeometryType.eBOX scale color).1 = some (w.nextAddr + 1) ∧
      (addRigidbody_type E w PxGeometryType.eBOX scale color).2.scene.mBodies
        = w.scene.mBodies ++ [(w.nextAddr + 1, b)] ∧
      b.mObjects = [w.nextAddr] ∧
      b.mObjects.length = 1 ∧
      (∀ obj ∈ b.mObjects,
        ((addRigidbody_type E w PxGeometryType.eBOX scale color).2.heap obj).scale
          = ⟨scale.x, scale.y, scale.z⟩)) ∧
    (∃ b : OptifuserRigidbody α,
      (addRigidbody_type E w PxGeometryType.eSPHERE scale color).1 = some (w.nextAddr + 1) ∧
      (addRigidbody_type E w PxGeometryType.eSPHERE scale color).2.scene.mBodies
        = w.scene.mBodies ++ [(w.nextAddr + 1, b)] ∧
      b.mObjects = [w.nextAddr] ∧
      b.mObjects.length = 1 ∧
      (∀ obj ∈ b.mObjects,
        ((addRigidbody_type E w PxGeometryType.eSPHERE scale color).2.heap obj).scale
          = ⟨scale.x, scale.y, scale.z⟩)) ∧
    (∃ b : OptifuserRigidbody α,
      (addRigidbody_type E w PxGeometryType.ePLANE scale color).1 = some (w.nextAddr + 1) ∧
      (addRigidbody_type E w PxGeometryType.ePLANE scale color).2.scene.mBodies
        = w.scene.mBodies ++ [(w.nextAddr + 1, b)] ∧
      b.mObjects = [w.nextAddr] ∧
      b.mObjects.length = 1 ∧
      (∀ obj ∈ b.mObjects,
        ((addRigidbody_type E w PxGeometryType.ePLANE scale color).2.heap obj).scale
          = ⟨scale.x, scale.y, scale.z⟩)) := by
  have hmem : ∀ obj, obj ∈ (OptifuserRigidbody.new E w.sceneAddr [w.nextAddr]).mObjects →
      obj = w.nextAddr := by
    intro obj hobj
    simpa [OptifuserRigidbody.new] using hobj
  refine ⟨⟨OptifuserRigidbody.new E w.sceneAddr [w.nextAddr], rfl, rfl, rfl, rfl,
      fun obj hobj => ?_⟩, fun z => rfl,
    ⟨OptifuserRigidbody.new E w.sceneAddr [w.nextAddr], rfl, rfl, rfl, rfl,
      fun obj hobj => ?_⟩,
    ⟨OptifuserRigidbody.new E w.sceneAddr [w.nextAddr], rfl, rfl, rfl, rfl,
      fun obj hobj => ?_⟩,
    ⟨OptifuserRigidbody.new E w.sceneAddr [w.nextAddr], rfl, rfl, rfl, rfl,
      fun obj hobj => ?_⟩⟩ <;>
    (rw [hmem obj hobj]; simp [addRigidbody_type, finishPrimitive, Heap.store])

/-- Example for C6: a capsule of radius 2 and half length 5 in the example
world (next address 1) gives the body at address 2 with the one handle 1, whose
object is the capsule mesh of (2, 5) at scale (1, 1, 1); a box with the same
scale argument gives a body whose one handle has scale (2, 5, 9). -/
theorem addRigidbody_type_scale_witness :
    (∃ b : OptifuserRigidbody Int,
      (addRigidbody_type envInt worldInt PxGeometryType.eCAPSULE ⟨2, 5, 9⟩ ⟨1, 0, 0⟩).1
        = some 2 ∧
      (addRigidbody_type envInt worldInt PxGeometryType.eCAPSULE ⟨2, 5, 9⟩
        ⟨1, 0, 0⟩).2.scene.mBodies = [(2, b)] ∧
      b.mObjects = [1] ∧
      ((addRigidbody_type envInt worldInt PxGeometryType.eCAPSULE ⟨2, 5, 9⟩
        ⟨1, 0, 0⟩).2.heap 1).scale = ⟨1, 1, 1⟩ ∧
      ((addRigidbody_type envInt worldInt PxGeometryType.eCAPSULE ⟨2, 5, 9⟩
        ⟨1, 0, 0⟩).2.heap 1).mesh = [40, 2, 5]) ∧
    (∃ b : OptifuserRigidbody Int,
      (addRigidbody_type envInt worldInt PxGeometryType.eBOX ⟨2, 5, 9⟩
        ⟨1, 0, 0⟩).2.scene.mBodies = [(2, b)] ∧
      b.mObjects = [1] ∧
      ((addRigidbody_type envInt worldInt PxGeometryType.eBOX ⟨2, 5, 9⟩
        ⟨1, 0, 0⟩).2.heap 1).scale = ⟨2, 5, 9⟩) :=
  ⟨match (addRigidbody_type_scale envInt worldInt ⟨2, 5, 9⟩ ⟨1, 0, 0⟩).1 with
   | ⟨b, h1, h2, h3, _, h5⟩ =>
     ⟨b, h1, h2, h3, (h5 1 (by rw [h3]; decide)).1,
      congrArg Optifuser.Object.mesh (h5 1 (by rw [h3]; decide)).2⟩,
   match (addRigidbody_type_scale envInt worldInt ⟨2, 5, 9⟩ ⟨1, 0, 0⟩).2.2.1 with
   | ⟨b, _, h2, h3, _, h5⟩ => ⟨b, h2, h3, h5 1 (by rw [h3]; decide)⟩⟩

end add

/-! ## Id tags of the bodies made by the scene -/

section construction
variable {α : Type}

open OptifuserScene

theorem getLast?_append_singleton {β : Type} (l : List β) (a : β) :
    (l ++ [a]).getLast? = some a := by
  simp

/-- A new body over one object just stored with the default tags has its tags
mirrored. -/
theorem new_single_mirrored (E : Env α) (scene objAddr : Nat) (heap : Heap α)
    (o : Optifuser.Object α) (hu : o.objId = E.mUniqueId0)
    (hs : o.segmentId = E.mSegmentationId0) :
    UniqueIdMirrored (OptifuserRigidbody.new E scene [objAddr]) (Heap.store heap objAddr o) ∧
    SegmentationIdMirrored (OptifuserRigidbody.new E scene [objAddr])
      (Heap.store heap objAddr o) := by
  constructor
  · intro obj hobj
    have hh : obj = objAddr := by simpa [OptifuserRigidbody.new] using hobj
    subst hh
    simpa [Heap.store, OptifuserRigidbody.getUniqueId, OptifuserRigidbody.new] using hu
  · intro obj hobj
    have hh : obj = objAddr := by simpa [OptifuserRigidbody.new] using hobj
    subst hh
    simpa [Heap.store, OptifuserRigidbody.getSegmentationId, OptifuserRigidbody.new] using hs

/-- The body made over the loaded objects has its tags mirrored when the
loaded objects carry the default tags. -/
theorem new_loaded_mirrored (E : Env α) (scene : Nat) (l : List (Optifuser.Object α))
    (heap : Heap α) (next : Nat) (scale : PxVec3 α)
    (hl : ∀ o ∈ l, o.objId = E.mUniqueId0 ∧ o.segmentId = E.mSegmentationId0) :
    UniqueIdMirrored (OptifuserRigidbody.new E scene (List.range' next l.length))
      (forEachObj (List.range' next l.length) (setScale scale)
        (allocObjects l heap next).2.1) ∧
    SegmentationIdMirrored (OptifuserRigidbody.new E scene (List.range' next l.length))
      (forEachObj (List.range' next l.length) (setScale scale)
        (allocObjects l heap next).2.1) := by
  have key : ∀ obj ∈ List.range' next l.length, ∃ o ∈ l,
      forEachObj (List.range' next l.length) (setScale scale)
        (allocObjects l heap next).2.1 obj = setScale scale o := by
    intro obj hobj
    rw [List.mem_range'_1] at hobj
    have hi : obj - next < l.length := by omega
    have hio : l[obj - next]? = some (l.get ⟨obj - next, hi⟩) := by
      simp [List.getElem?_eq_getElem hi]
    refine ⟨l.get ⟨obj - next, hi⟩, List.get_mem _ _ _, ?_⟩
    have h := loaded_object_scaled l heap next scale (obj - next) _ hio
    rw [show next + (obj - next) = obj by omega] at h
    exact h
  constructor
  · intro obj hobj
    obtain ⟨o, ho, heq⟩ := key obj hobj
    rw [heq]
    exact (hl o ho).1
  · intro obj hobj
    obtain ⟨o, ho, heq⟩ := key obj hobj
    rw [heq]
    exact (hl o ho).2

/-- The example environment creates every object with the ids 0 and 0, which
are the ids a new body reports. -/
theorem envInt_defaultTags : envInt.DefaultTags := by
  refine ⟨fun meshFile o ho => ?_, ⟨rfl, rfl⟩, ⟨rfl, rfl⟩, ⟨rfl, rfl⟩,
    fun _ _ => ⟨rfl, rfl⟩, fun _ _ => ⟨rfl, rfl⟩⟩
  by_cases hf : meshFile = "two.obj"
  · simp only [envInt, hf, if_true, List.mem_cons, List.mem_singleton, List.not_mem_nil,
      or_false] at ho
    rcases ho with ho | ho <;> subst ho <;> exact ⟨rfl, rfl⟩
  · simp [envInt, hf] at ho

end construction

/-! ## Removing bodies -/

section remove
variable {α : Type}

open OptifuserScene

theorem destroyVisualObjects_calls (b : OptifuserRigidbody α) (mScene : Optifuser.Scene) :
    (b.destroyVisualObjects mScene).calls
      = mScene.calls ++ b.mObjects.map Optifuser.SceneCall.removeObject := by
  unfold OptifuserRigidbody.destroyVisualObjects
  generalize b.mObjects = l
  induction l generalizing mScene with
  | nil => simp
  | cons a l ih =>
    rw [List.foldl_cons, ih]
    simp [Optifuser.Scene.removeObject]

/-- The search finds nothing: body list and render scene are returned as they
were. -/
theorem removeLoop_not_mem (body : Nat) (l : List (Nat × OptifuserRigidbody α))
    (mScene : Optifuser.Scene) (h : body ∉ l.map Prod.fst) :
    removeLoop body l mScene = (l, mScene) := by
  induction l with
  | nil => rfl
  | cons e l ih =>
    have hne : ¬ e.1 = body := fun he => h (by simp [← he])
    have hl : body ∉ l.map Prod.fst := fun hm => h (by simp at hm ⊢; exact Or.inr hm)
    simp [removeLoop, hne, ih hl]

/-- The search finds the first entry at address `body`: that entry's handles
are detached and the entry is erased. -/
theorem removeLoop_mem (body : Nat) (l : List (Nat × OptifuserRigidbody α))
    (mScene : Optifuser.Scene) (h : body ∈ l.map Prod.fst) :
    ∃ pre b post, l = pre ++ (body, b) :: post ∧ body ∉ pre.map Prod.fst ∧
      removeLoop body l mScene = (pre ++ post, b.destroyVisualObjects mScene) := by
  induction l with
  | nil => simp at h
  | cons e l ih =>
    by_cases he : e.1 = body
    · refine ⟨[], e.2, l, ?_, by simp, ?_⟩
      · simp [← he]
      · simp [removeLoop, he]
    · have hl : body ∈ l.map Prod.fst := by
        simp only [List.map_cons, List.mem_cons] at h
        rcases h with h | h
        · exact absurd h.symm he
        · exact h
      obtain ⟨pre, b, post, hsplit, hpre, hrun⟩ := ih hl
      refine ⟨e :: pre, b, post, by simp [hsplit], ?_, ?_⟩
      · simp only [List.map_cons, List.mem_cons, not_or]
        exact ⟨fun hb => he hb.symm, hpre⟩
      · simp [removeLoop, he, hrun]

/-- With distinct addresses, the entry at a given address is unique. -/
theorem entry_unique_of_nodup (l : List (Nat × OptifuserRigidbody α))
    (hnd : (l.map Prod.fst).Nodup) (a : Nat) (b1 b2 : OptifuserRigidbody α)
    (h1 : (a, b1) ∈ l) (h2 : (a, b2) ∈ l) : b1 = b2 := by
  induction l with
  | nil => simp at h1
  | cons e l ih =>
    simp only [List.map_cons, List.nodup_cons] at hnd
    simp only [List.mem_cons] at h1 h2
    rcases h1 with h1 | h1 <;> rcases h2 with h2 | h2
    · rw [← h2] at h1
      exact (Prod.mk.inj h1).2
    · exfalso
      apply hnd.1
      have hm := List.mem_map_of_mem Prod.fst h2
      rw [← h1]
      exact hm
    · exfalso
      apply hnd.1
      have hm := List.mem_map_of_mem Prod.fst h1
      rw [← h2]
      exact hm
    · exact ih hnd.2 h1 h2

/-- C2: in a scene whose bodies are distinct objects, removing a body that is
in the body list leaves a list without it; removing an identity that is not in
the list changes nothing at all; hence removing the same body a second time
changes nothing. -/
theorem removeRigidbody_absent_then_noop (w : World α) (body : Nat)
    (hnd : (w.scene.mBodies.map Prod.fst).Nodup) :
    (body ∈ w.scene.mBodies.map Prod.fst →
      body ∉ (removeRigidbody w body).scene.mBodies.map Prod.fst) ∧
    (body ∉ w.scene.mBodies.map Prod.fst → removeRigidbody w body = w) ∧
    removeRigidbody (removeRigidbody w body) body = removeRigidbody w body := by
  have hnoop : ∀ w1 : World α, body ∉ w1.scene.mBodies.map Prod.fst →
      removeRigidbody w1 body = w1 := by
    intro w1 h
    simp only [removeRigidbody, removeLoop_not_mem body _ _ h]
  have hgone : body ∈ w.scene.mBodies.map Prod.fst →
      body ∉ (removeRigidbody w body).scene.mBodies.map Prod.fst := by
    intro h
    obtain ⟨pre, b, post, hsplit, hpre, hrun⟩ := removeLoop_mem body _ w.scene.mScene h
    simp only [removeRigidbody, hrun]
    rw [hsplit] at hnd
    simp only [List.map_append, List.map_cons, List.mem_append, not_or]
    refine ⟨hpre, fun hpost => ?_⟩
    simp only [List.map_append, List.map_cons] at hnd
    exact (List.nodup_cons.1 (List.nodup_append.1 hnd).2.1).1 hpost
  refine ⟨hgone, hnoop w, ?_⟩
  by_cases h : body ∈ w.scene.mBodies.map Prod.fst
  · exact hnoop _ (hgone h)
  · rw [hnoop w h, hnoop w h]

/-- Example for C2: in the example scene with the bodies 3 and 5, removing
body 3 leaves only body 5, and removing the unknown identity 9 changes nothing. -/
theorem removeRigidbody_absent_then_noop_witness :
    (worldTwo.scene.mBodies.map Prod.fst).Nodup ∧
    3 ∈ worldTwo.scene.mBodies.map Prod.fst ∧
    3 ∉ (removeRigidbody worldTwo 3).scene.mBodies.map Prod.fst ∧
    9 ∉ worldTwo.scene.mBodies.map Prod.fst ∧
    removeRigidbody worldTwo 9 = worldTwo :=
  ⟨by decide, by decide,
   (removeRigidbody_absent_then_noop worldTwo 3 (by decide)).1 (by decide),
   by decide,
   (removeRigidbody_absent_then_noop worldTwo 9 (by decide)).2.1 (by decide)⟩

/-- C10: in a scene satisfying the ownership invariant, removing a body `b` of
the body list sends the render scene one `removeObject` per handle of `b`, in
handle order, and nothing else: each handle of `b` is removed exactly once and
no handle of another body is removed; exactly the entry of `b` is erased from
the body list, the entries before and after it staying as they were, in order;
the objects, the cameras, the log and the allocator are untouched. -/
theorem removeRigidbody_detaches_only_body (w : World α) (body : Nat)
    (b : OptifuserRigidbody α) (hwf : w.WF) (hb : (body, b) ∈ w.scene.mBodies) :
    (removeRigidbody w body).scene.mScene.calls
      = w.scene.mScene.calls ++ b.mObjects.map Optifuser.SceneCall.removeObject ∧
    (∀ h ∈ b.mObjects,
      (b.mObjects.map Optifuser.SceneCall.removeObject).count
        (Optifuser.SceneCall.removeObject h) = 1) ∧
    (∀ e ∈ w.scene.mBodies, e.1 ≠ body → ∀ h ∈ e.2.mObjects,
      Optifuser.SceneCall.removeObject h
        ∉ b.mObjects.map Optifuser.SceneCall.removeObject) ∧
    (∃ pre post, w.scene.mBodies = pre ++ (body, b) :: post ∧
      (removeRigidbody w body).scene.mBodies = pre ++ post) ∧
    (removeRigidbody w body).heap = w.heap ∧
    (removeRigidbody w body).scene.mCameras = w.scene.mCameras ∧
    (removeRigidbody w body).log = w.log ∧
    (removeRigidbody w body).nextAddr = w.nextAddr := by
  obtain ⟨hnd, -, hbodies, -, hdisj⟩ := hwf
  have hmem : body ∈ w.scene.mBodies.map Prod.fst := List.mem_map_of_mem Prod.fst hb
  obtain ⟨pre, b1, post, hsplit, -, hrun⟩ := removeLoop_mem body _ w.scene.mScene hmem
  have hb1 : (body, b1) ∈ w.scene.mBodies := by rw [hsplit]; simp
  have hbb : b1 = b := entry_unique_of_nodup _ hnd body b1 b hb1 hb
  subst hbb
  have hinj : Function.Injective Optifuser.SceneCall.removeObject := by
    intro x y hxy
    cases hxy
    rfl
  refine ⟨?_, fun h hh => ?_, fun e he hne h hh hmap => ?_, ⟨pre, post, hsplit, ?_⟩,
    rfl, rfl, rfl, rfl⟩
  · simp only [removeRigidbody, hrun, destroyVisualObjects_calls]
  · exact List.count_eq_one_of_mem ((hbodies _ hb).2.1.map hinj)
      (List.mem_map_of_mem _ hh)
  · rcases List.mem_map.1 hmap with ⟨h2, hh2, heq⟩
    have h2h : h2 = h := hinj heq
    subst h2h
    exact hdisj e he (body, b1) hb hne _ hh hh2
  · simp only [removeRigidbody, hrun]

/-- Example for C10: removing body 3 (handles 1 and 2) from the example scene
asks the render scene to remove 1 and 2 after the three earlier registrations,
and leaves the box body 5 with its handle 4. -/
theorem removeRigidbody_detaches_only_body_witness :
    worldTwo.WF ∧
    (3, OptifuserRigidbody.new envInt 0 [1, 2]) ∈ worldTwo.scene.mBodies ∧
    (removeRigidbody worldTwo 3).scene.mScene.calls
      = [Optifuser.SceneCall.addObject 1, Optifuser.SceneCall.addObject 2,
         Optifuser.SceneCall.addObject 4,
         Optifuser.SceneCall.removeObject 1, Optifuser.SceneCall.removeObject 2] ∧
    (removeRigidbody worldTwo 3).scene.mBodies = [(5, OptifuserRigidbody.new envInt 0 [4])] :=
  ⟨by decide, by decide,
   (removeRigidbody_detaches_only_body worldTwo 3 (OptifuserRigidbody.new envInt 0 [1, 2])
      (by decide) (by decide)).1,
   by decide⟩

end remove

/-! ## Cameras -/

section cameras
variable {α : Type}

open OptifuserScene

theorem getCameras_eq (w : World α) : getCameras w = w.scene.mCameras.map Prod.fst := by
  have h : ∀ (l : List (Nat × OptifuserCamera α)) (acc : List Nat),
      l.foldl (fun cams cam => cams ++ [cam.1]) acc = acc ++ l.map Prod.fst := by
    intro l
    induction l with
    | nil => intro acc; simp
    | cons e l ih => intro acc; simp [List.foldl_cons, ih]
  simpa [getCameras] using h w.scene.mCameras []

theorem getCameras_addCamera (w : World α) (addr : Nat) (name : String) (width height : Nat)
    (fovx fovy near far : α) (shaderDir : String) :
    getCameras (addCamera w addr name width height fovx fovy near far shaderDir).2
      = getCameras w ++ [addr] := by
  simp [getCameras_eq, addCamera]

theorem mem_getCameras_removeCamera (w : World α) (d c : Nat) :
    c ∈ getCameras (removeCamera w d) ↔ c ∈ getCameras w ∧ c ≠ d := by
  simp only [getCameras_eq, removeCamera, List.mem_map, List.mem_filter]
  constructor
  · rintro ⟨e, ⟨he, hd⟩, rfl⟩
    refine ⟨⟨e, he, rfl⟩, fun h => ?_⟩
    simp [h] at hd
  · rintro ⟨⟨e, he, rfl⟩, hne⟩
    refine ⟨e, ⟨he, ?_⟩, rfl⟩
    have : ¬ d = e.1 := fun h => hne h.symm
    simp [this]

/-- Removing a camera that is not in the scene changes nothing. -/
theorem removeCamera_not_mem (w : World α) (c : Nat) (h : c ∉ getCameras w) :
    removeCamera w c = w := by
  have hf : w.scene.mCameras.filter (fun e => !decide (c = e.1)) = w.scene.mCameras := by
    rw [List.filter_eq_self]
    intro e he
    have hne : ¬ c = e.1 := by
      intro hc
      apply h
      rw [getCameras_eq, hc]
      exact List.mem_map_of_mem Prod.fst he
    simp [hne]
  simp only [removeCamera, hf]

theorem runCameraCalls_cons (x : CameraCall α) (calls : List (CameraCall α)) (w : World α) :
    runCameraCalls (x :: calls) w = runCameraCalls calls (x.run w) := rfl

/-- A camera address is in the scene after a sequence of calls exactly when it
was there before and no call removed it, or some call of the sequence added a
camera at it and no later call removed it. -/
theorem mem_getCameras_runCameraCalls (calls : List (CameraCall α)) (w : World α) (c : Nat) :
    c ∈ getCameras (runCameraCalls calls w) ↔
      (c ∈ getCameras w ∧ CameraCall.removeCamera c ∉ calls) ∨
      (∃ pre addr name width height fovx fovy near far shaderDir post,
        calls = pre ++ CameraCall.addCamera addr name width height fovx fovy near far shaderDir
                  :: post ∧
        (addCamera (runCameraCalls pre w) addr name width height fovx fovy near far
          shaderDir).1 = c ∧
        CameraCall.removeCamera c ∉ post) := by
  induction calls generalizing w with
  | nil =>
    constructor
    · intro h
      exact Or.inl ⟨h, by simp⟩
    · rintro (⟨h, -⟩ | ⟨pre, _, _, _, _, _, _, _, _, _, post, hsplit, -, -⟩)
      · exact h
      · simp at hsplit
  | cons x calls ih =>
    rw [runCameraCalls_cons, ih]
    cases x with
    | addCamera addr name width height fovx fovy near far shaderDir =>
      simp only [CameraCall.run, getCameras_addCamera, List.mem_append, List.mem_singleton]
      constructor
      · rintro (⟨hc | hc, hrm⟩ |
          ⟨pre, a, n, wd, ht, fx, fy, nr, fr, sd, post, hsplit, hret, hrm⟩)
        · exact Or.inl ⟨hc, by simp [hrm]⟩
        · exact Or.inr ⟨[], addr, name, width, height, fovx, fovy, near, far, shaderDir, calls,
            rfl, hc.symm, hrm⟩
        · exact Or.inr ⟨CameraCall.addCamera addr name width height fovx fovy near far shaderDir
              :: pre, a, n, wd, ht, fx, fy, nr, fr, sd, post, by rw [hsplit]; rfl, hret, hrm⟩
      · rintro (⟨hc, hrm⟩ | ⟨pre, a, n, wd, ht, fx, fy, nr, fr, sd, post, hsplit, hret, hrm⟩)
        · exact Or.inl ⟨Or.inl hc, fun h => hrm (List.mem_cons_of_mem _ h)⟩
        · cases pre with
          | nil =>
            simp only [List.nil_append, List.cons.injEq] at hsplit
            obtain ⟨hx, hpost⟩ := hsplit
            cases hx
            subst hpost
            exact Or.inl ⟨Or.inr hret.symm, hrm⟩
          | cons y pre =>
            simp only [List.cons_append, List.cons.injEq] at hsplit
            obtain ⟨hx, hcalls⟩ := hsplit
            subst hx
            exact Or.inr ⟨pre, a, n, wd, ht, fx, fy, nr, fr, sd, post, hcalls, hret, hrm⟩
    | removeCamera d =>
      simp only [CameraCall.run, mem_getCameras_removeCamera]
      constructor
      · rintro (⟨⟨hc, hne⟩, hrm⟩ |
          ⟨pre, a, n, wd, ht, fx, fy, nr, fr, sd, post, hsplit, hret, hrm⟩)
        · refine Or.inl ⟨hc, fun h => ?_⟩
          rcases List.mem_cons.1 h with h | h
          · cases h
            exact hne rfl
          · exact hrm h
        · exact Or.inr ⟨CameraCall.removeCamera d :: pre, a, n, wd, ht, fx, fy, nr, fr, sd, post,
            by rw [hsplit]; rfl, hret, hrm⟩
      · rintro (⟨hc, hrm⟩ | ⟨pre, a, n, wd, ht, fx, fy, nr, fr, sd, post, hsplit, hret, hrm⟩)
        · refine Or.inl ⟨⟨hc, fun h => ?_⟩, fun h => hrm (List.mem_cons_of_mem _ h)⟩
          apply hrm
          rw [h]
          exact List.mem_cons_self _ _
        · cases pre with
          | nil =>
            simp only [List.nil_append, List.cons.injEq] at hsplit
            exact absurd hsplit.1 (by simp)
          | cons y pre =>
            simp only [List.cons_append, List.cons.injEq] at hsplit
            obtain ⟨hx, hcalls⟩ := hsplit
            subst hx
            exact Or.inr ⟨pre, a, n, wd, ht, fx, fy, nr, fr, sd, post, hcalls, hret, hrm⟩

theorem CameraCall.fresh_addCamera (w : World α) (addr : Nat) (name : String)
    (width height : Nat) (fovx fovy near far : α) (shaderDir : String)
    (h : (CameraCall.addCamera addr name width height fovx fovy near far shaderDir).fresh w
      = true) : addr ∉ getCameras w := by
  simpa [CameraCall.fresh] using h

/-- One camera call, with the allocator's guarantee, keeps the cameras distinct. -/
theorem CameraCall.run_cameras_nodup (x : CameraCall α) (w : World α)
    (hnd : (getCameras w).Nodup) (hfresh : x.fresh w = true) :
    (getCameras (x.run w)).Nodup := by
  cases x with
  | addCamera addr name width height fovx fovy near far shaderDir =>
    have hnot := CameraCall.fresh_addCamera w addr name width height fovx fovy near far
      shaderDir hfresh
    simp only [CameraCall.run, getCameras_addCamera]
    rw [List.nodup_append]
    refine ⟨hnd, List.nodup_singleton _, ?_⟩
    intro a ha hb
    simp only [List.mem_singleton] at hb
    exact hnot (hb ▸ ha)
  | removeCamera d =>
    simp only [CameraCall.run, getCameras_eq, removeCamera]
    rw [getCameras_eq] at hnd
    exact hnd.sublist ((List.filter_sublist _).map Prod.fst)

theorem runCameraCalls_cameras_nodup (calls : List (CameraCall α)) (w : World α)
    (hnd : (getCameras w).Nodup) (hfresh : freshCameraCalls calls w = true) :
    (getCameras (runCameraCalls calls w)).Nodup := by
  induction calls generalizing w with
  | nil => exact hnd
  | cons x calls ih =>
    simp only [freshCameraCalls, Bool.and_eq_true] at hfresh
    rw [runCameraCalls_cons]
    exact ih _ (CameraCall.run_cameras_nodup x w hnd hfresh.1) hfresh.2

/-- C7: start from a scene whose cameras are distinct objects (a new scene has
none) and perform any sequence of `addCamera` and `removeCamera` calls in which
the allocator gives each new camera an address that no camera alive in the
scene has (a freed address may come back).  Then `getCameras()` lists no
camera twice; a camera is listed exactly when it was in the scene at the start
and no call removed it, or some call of the sequence added it (returned it) and
no later call removed it; and `removeCamera` of a camera that is not listed
changes nothing. -/
theorem getCameras_added_not_removed (calls : List (CameraCall α)) (w : World α)
    (hnd : (getCameras w).Nodup) (hfresh : freshCameraCalls calls w = true) :
    (getCameras (runCameraCalls calls w)).Nodup ∧
    (∀ c, c ∈ getCameras (runCameraCalls calls w) ↔
      (c ∈ getCameras w ∧ CameraCall.removeCamera c ∉ calls) ∨
      (∃ pre addr name width height fovx fovy near far shaderDir post,
        calls = pre ++ CameraCall.addCamera addr name width height fovx fovy near far shaderDir
                  :: post ∧
        (addCamera (runCameraCalls pre w) addr name width height fovx fovy near far
          shaderDir).1 = c ∧
        CameraCall.removeCamera c ∉ post)) ∧
    (∀ c, c ∉ getCameras (runCameraCalls calls w) →
      removeCamera (runCameraCalls calls w) c = runCameraCalls calls w) :=
  ⟨runCameraCalls_cameras_nodup calls w hnd hfresh,
   fun c => mem_getCameras_runCameraCalls calls w c,
   fun c hc => removeCamera_not_mem _ c hc⟩

/-- Example for C7: in a new scene a camera is added at address 1 and removed,
a second camera gets the freed address 1, a third one address 2, and then the
stale pointer 1 is removed again: that removes the second camera, so only
camera 2 is listed; without the third camera the list ends empty. -/
theorem getCameras_added_not_removed_witness :
    (getCameras worldInt).Nodup ∧
    freshCameraCalls cameraCallsInt worldInt = true ∧
    (getCameras (runCameraCalls cameraCallsInt worldInt)).Nodup ∧
    2 ∈ getCameras (runCameraCalls cameraCallsInt worldInt) ∧
    getCameras (runCameraCalls cameraCallsInt worldInt) = [2] ∧
    getCameras (runCameraCalls
      [CameraCall.addCamera 1 "front" 640 480 1 1 1 100 "", CameraCall.removeCamera 1,
       CameraCall.addCamera 1 "back" 640 480 1 1 1 100 "glsl", CameraCall.removeCamera 1]
      worldInt) = [] :=
  ⟨by decide, by decide,
   (getCameras_added_not_removed cameraCallsInt worldInt (by decide) (by decide)).1,
   ((getCameras_added_not_removed cameraCallsInt worldInt (by decide) (by decide)).2.1 2).2
     (Or.inr ⟨[CameraCall.addCamera 1 "front" 640 480 1 1 1 100 "", CameraCall.removeCamera 1,
         CameraCall.addCamera 1 "back" 640 480 1 1 1 100 "glsl"],
       2, "side", 640, 480, 1, 1, 1, 100, "", [CameraCall.removeCamera 1],
       rfl, rfl, by decide⟩),
   by decide, by decide⟩

end cameras

/-! ## The ownership invariant holds in every scene built by the scene's methods -/

section invariant
variable {α : Type}

open OptifuserScene

/-- A scene just constructed satisfies the ownership invariant. -/
theorem WF_new (heap : Heap α) (nextAddr : Nat) (log : List LogEntry) (mGlslDir : String)
    (sceneAddr renderer : Nat) (name : String) :
    World.WF { heap := heap, nextAddr := nextAddr, log := log, mGlslDir := mGlslDir,
               sceneAddr := sceneAddr, scene := OptifuserScene.new renderer name } := by
  simp [World.WF, OptifuserScene.new]

/-- Appending a body at a new address over new, distinct handles keeps the
invariant. -/
theorem WF_append_body (w w1 : World α) (k : Nat) (b : OptifuserRigidbody α) (hwf : w.WF)
    (hbodies : w1.scene.mBodies = w.scene.mBodies ++ [(k, b)])
    (hcams : w1.scene.mCameras = w.scene.mCameras)
    (hk : w.nextAddr ≤ k) (hk1 : k < w1.nextAddr) (hnd : b.mObjects.Nodup)
    (hh : ∀ h ∈ b.mObjects, w.nextAddr ≤ h ∧ h < w1.nextAddr) : w1.WF := by
  obtain ⟨h1, h2, h3, h4, h5⟩ := hwf
  have hle : w.nextAddr ≤ w1.nextAddr := by omega
  refine ⟨?_, ?_, ?_, ?_, ?_⟩
  · rw [hbodies, List.map_append, List.nodup_append]
    refine ⟨h1, by simp, ?_⟩
    intro a ha hb
    simp only [List.map_cons, List.map_nil, List.mem_singleton] at hb
    rcases List.mem_map.1 ha with ⟨e, he, rfl⟩
    have := (h3 e he).1
    omega
  · rw [hcams]; exact h2
  · intro e he
    rw [hbodies] at he
    rcases List.mem_append.1 he with he | he
    · obtain ⟨ha, hb, hc⟩ := h3 e he
      exact ⟨by omega, hb, fun h hm => by have := hc h hm; omega⟩
    · simp only [List.mem_singleton] at he
      subst he
      exact ⟨hk1, hnd, fun h hm => (hh h hm).2⟩
  · intro c hc
    rw [hcams] at hc
    have := h4 c hc
    omega
  · intro e1 he1 e2 he2 hne h hm1 hm2
    rw [hbodies] at he1 he2
    rcases List.mem_append.1 he1 with he1 | he1 <;> rcases List.mem_append.1 he2 with he2 | he2
    · exact h5 e1 he1 e2 he2 hne h hm1 hm2
    · simp only [List.mem_singleton] at he2
      subst he2
      have := (h3 e1 he1).2.2 h hm1
      have := (hh h hm2).1
      omega
    · simp only [List.mem_singleton] at he1
      subst he1
      have := (h3 e2 he2).2.2 h hm2
      have := (hh h hm1).1
      omega
    · simp only [List.mem_singleton] at he1 he2
      subst he1
      subst he2
      exact hne rfl

/-- Dropping bodies or cameras, without lowering the next address, keeps the
invariant. -/
theorem WF_sublist (w w1 : World α) (hwf : w.WF)
    (hbodies : w1.scene.mBodies.Sublist w.scene.mBodies)
    (hcams : w1.scene.mCameras.Sublist w.scene.mCameras)
    (hnext : w.nextAddr ≤ w1.nextAddr) : w1.WF := by
  obtain ⟨h1, h2, h3, h4, h5⟩ := hwf
  refine ⟨h1.sublist (hbodies.map Prod.fst), h2.sublist (hcams.map Prod.fst), ?_, ?_, ?_⟩
  · intro e he
    obtain ⟨ha, hb, hc⟩ := h3 e (hbodies.subset he)
    exact ⟨by omega, hb, fun h hm => by have := hc h hm; omega⟩
  · intro c hc
    have := h4 c (hcams.subset hc)
    omega
  · intro e1 he1 e2 he2
    exact h5 e1 (hbodies.subset he1) e2 (hbodies.subset he2)

theorem removeLoop_sublist (body : Nat) (l : List (Nat × OptifuserRigidbody α))
    (mScene : Optifuser.Scene) : (removeLoop body l mScene).1.Sublist l := by
  induction l with
  | nil => exact List.Sublist.refl _
  | cons e l ih =>
    by_cases he : e.1 = body
    · simp only [removeLoop, he, if_true]
      exact List.sublist_cons_self _ _
    · simp only [removeLoop, he, if_false]
      exact ih.cons₂ _

/-- A new camera at an address that no camera alive has keeps the invariant. -/
theorem WF_addCamera (w : World α) (addr : Nat) (name : String) (width height : Nat)
    (fovx fovy near far : α) (shaderDir : String) (hwf : w.WF)
    (hnot : addr ∉ getCameras w) :
    (addCamera w addr name width height fovx fovy near far shaderDir).2.WF := by
  obtain ⟨h1, h2, h3, h4, h5⟩ := hwf
  rw [getCameras_eq] at hnot
  refine ⟨h1, ?_, ?_, ?_, h5⟩
  · show ((w.scene.mCameras ++ [_]).map Prod.fst).Nodup
    rw [List.map_append, List.nodup_append]
    refine ⟨h2, by simp, ?_⟩
    intro a ha hb
    simp only [List.map_cons, List.map_nil, List.mem_singleton] at hb
    exact hnot (hb ▸ ha)
  · intro e he
    obtain ⟨ha, hb, hc⟩ := h3 e he
    refine ⟨?_, hb, fun h hm => ?_⟩
    · show e.1 < max w.nextAddr (addr + 1)
      omega
    · show h < max w.nextAddr (addr + 1)
      have := hc h hm
      omega
  · intro c hc
    show c.1 < max w.nextAddr (addr + 1)
    have hc2 : c ∈ w.scene.mCameras ++ [(addr, _)] := hc
    rcases List.mem_append.1 hc2 with hc2 | hc2
    · have := h4 c hc2
      omega
    · simp only [List.mem_singleton] at hc2
      subst hc2
      show addr < max w.nextAddr (addr + 1)
      omega

/-- Every adding or removing method of the scene keeps the invariant. -/
theorem sceneOp_run_WF [One α] (E : Env α) (op : SceneOp α) (w w1 : World α) (hwf : w.WF)
    (hfresh : op.fresh w = true) (hrun : op.run E w = some w1) : w1.WF := by
  cases op with
  | addRigidbody_meshFile meshFile scale =>
    simp only [SceneOp.run, Option.some.injEq] at hrun
    subst hrun
    by_cases hload : (allocObjects (E.LoadObj meshFile) w.heap w.nextAddr).1.isEmpty = true
    · have hl : (E.LoadObj meshFile).length = 0 := by
        rw [allocObjects_nil_iff] at hload
        exact List.length_eq_zero.2 (List.isEmpty_iff.1 hload)
      refine WF_sublist w _ hwf ?_ ?_ ?_
      · simp only [OptifuserScene.addRigidbody_meshFile, hload, if_true]
        exact List.Sublist.refl _
      · simp only [OptifuserScene.addRigidbody_meshFile, hload, if_true]
        exact List.Sublist.refl _
      · simp only [OptifuserScene.addRigidbody_meshFile, hload, if_true, allocObjects_next, hl]
        omega
    · refine WF_append_body w _ (w.nextAddr + (E.LoadObj meshFile).length)
        (OptifuserRigidbody.new E w.sceneAddr
          (List.range' w.nextAddr (E.LoadObj meshFile).length)) hwf ?_ ?_ ?_ ?_ ?_ ?_
      · simp only [OptifuserScene.addRigidbody_meshFile]
        rw [if_neg hload]
        simp only [loadLoop_eq, allocObjects_addrs, allocObjects_next, List.nil_append]
      · simp only [OptifuserScene.addRigidbody_meshFile]
        rw [if_neg hload]
      · omega
      · simp only [OptifuserScene.addRigidbody_meshFile]
        rw [if_neg hload]
        simp only [allocObjects_next]
        omega
      · exact List.nodup_range' _ _
      · intro h hm
        simp only [OptifuserScene.addRigidbody_meshFile]
        rw [if_neg hload]
        simp only [allocObjects_next]
        have hm2 : h ∈ List.range' w.nextAddr (E.LoadObj meshFile).length := hm
        rw [List.mem_range'_1] at hm2
        omega
  | addRigidbody_points points normals indices scale color =>
    simp only [SceneOp.run, OptifuserScene.addRigidbody_points] at hrun
    cases hv : buildVertices points normals with
    | none => simp [hv] at hrun
    | some vertices =>
      simp only [hv, Option.map_some', Option.some.injEq] at hrun
      subst hrun
      refine WF_append_body w _ (w.nextAddr + 1)
        (OptifuserRigidbody.new E w.sceneAddr [w.nextAddr]) hwf rfl rfl (by omega) ?_ ?_ ?_
      · show w.nextAddr + 1 < w.nextAddr + 1 + 1
        omega
      · simp [OptifuserRigidbody.new]
      · intro h hm
        have hh : h = w.nextAddr := by simpa [OptifuserRigidbody.new] using hm
        subst hh
        exact ⟨Nat.le_refl _, by show w.nextAddr < w.nextAddr + 1 + 1; omega⟩
  | addRigidbody_type type scale color =>
    simp only [SceneOp.run, Option.some.injEq] at hrun
    subst hrun
    by_cases hsup : type = PxGeometryType.eBOX ∨ type = PxGeometryType.eSPHERE ∨
        type = PxGeometryType.ePLANE ∨ type = PxGeometryType.eCAPSULE
    · refine WF_append_body w _ (w.nextAddr + 1)
        (OptifuserRigidbody.new E w.sceneAddr [w.nextAddr]) hwf ?_ ?_ ?_ ?_ ?_ ?_
      · rcases hsup with h | h | h | h <;> subst h <;> rfl
      · rcases hsup with h | h | h | h <;> subst h <;> rfl
      · omega
      · rcases hsup with h | h | h | h <;> subst h <;>
          simp [OptifuserScene.addRigidbody_type, finishPrimitive]
      · simp [OptifuserRigidbody.new]
      · intro h hm
        have hh : h = w.nextAddr := by simpa [OptifuserRigidbody.new] using hm
        subst hh
        rcases hsup with h | h | h | h <;> subst h <;>
          simp [OptifuserScene.addRigidbody_type, finishPrimitive] <;> omega
    · refine WF_sublist w _ hwf ?_ ?_ ?_ <;>
        cases type <;> simp [OptifuserScene.addRigidbody_type] at hsup ⊢
  | removeRigidbody body =>
    simp only [SceneOp.run, Option.some.injEq] at hrun
    subst hrun
    exact WF_sublist w _ hwf (removeLoop_sublist body _ _) (List.Sublist.refl _) (Nat.le_refl _)
  | camera call =>
    simp only [SceneOp.run, Option.some.injEq] at hrun
    subst hrun
    cases call with
    | addCamera addr name width height fovx fovy near far shaderDir =>
      exact WF_addCamera w addr name width height fovx fovy near far shaderDir hwf
        (CameraCall.fresh_addCamera w addr name width height fovx fovy near far shaderDir hfresh)
    | removeCamera camera =>
      exact WF_sublist w _ hwf (List.Sublist.refl _) (List.filter_sublist _) (Nat.le_refl _)

/-- Every scene reached from one satisfying the invariant (such as a new scene)
by the scene's methods, with the allocator's guarantee for new cameras,
satisfies it. -/
theorem runSceneOps_WF [One α] (E : Env α) (ops : List (SceneOp α)) (w w1 : World α)
    (hwf : w.WF) (hfresh : freshSceneOps E ops w = true)
    (hrun : runSceneOps E ops w = some w1) : w1.WF := by
  induction ops generalizing w with
  | nil =>
    simp only [runSceneOps, Option.some.injEq] at hrun
    subst hrun
    exact hwf
  | cons op ops ih =>
    simp only [runSceneOps] at hrun
    simp only [freshSceneOps, Bool.and_eq_true] at hfresh
    cases hop : op.run E w with
    | none => simp [hop] at hrun
    | some w2 =>
      simp only [hop, Option.some_bind] at hrun
      have hf2 : freshSceneOps E ops w2 = true := by
        have := hfresh.2
        simpa [hop] using this
      exact ih w2 (sceneOp_run_WF E op w w2 hwf hfresh.1 hop) hf2 hrun

end invariant

end sapien.Renderer
